import Mathlib

/-!
Pepper: the bytecode interpreter loop of `vm.c`.

A shallow embedding of `src/vm.c` (the operand stack, the fetch/decode/execute
loop `run`, the string/number coercion of `OP_ADD`, runtime error reporting) and of
the instruction catalogue of `src/chunk.h`.

Conventions of the embedding.

* The C type `double`, its operators and the `"%g"` conversion of `snprintf` belong to
  the C platform, not to this repository.  They are a parameter: every definition takes a
  `Host F` that supplies them for a carrier `F`, and every theorem holds for every host.
  `intHost` is a small concrete host used to run the definitions on concrete chunks.
* Text (`char *`) is a `String`, one `Char` per C `char`.
* The operand stack `vm.stack .. vm.stackTop` is a `List`, bottom first: the top of the
  stack is the last element.  The array has a fixed capacity, declared in `vm.h`, which is
  not part of the sources: the capacity is a parameter of the machine, carried as `free`,
  the number of unused slots above `vm.stackTop`.  The capacity is
  `stack.length + free`; a `push` with no free slot is a fault.
* Behaviour that C leaves undefined is an explicit `Fault`.
-/

namespace Pepper

/-! ## Values (value.h, object.h) -/

/-- Modelled from the spec: `ObjString` of `object.h`, which is not among the sources.
A string object is its character content; `length` is the number of characters. -/
structure ObjString where
  chars : String
deriving DecidableEq, Repr

/-- The `length` field of an `ObjString`. -/
def ObjString.length (s : ObjString) : Nat := s.chars.length

/-- Modelled from the spec: the heap objects of `object.h`, which is not among the
sources: "an opaque reference-to-heap-object kind".  Strings are known by content;
every other object is an opaque reference. -/
inductive Obj where
  | string (s : ObjString)
  | other (ref : Nat)
deriving DecidableEq, Repr

/-- Modelled from the spec: `Value` of `value.h`, which is not among the sources:
"tagged variant over: Nil, Bool(bool), Number(double-precision float), Object(reference)". -/
inductive Value (F : Type) where
  | nil
  | bool (b : Bool)
  | number (n : F)
  | obj (o : Obj)
deriving DecidableEq, Repr

/-- What went wrong when the C program leaves defined behaviour. -/
inductive Fault where
  /-- a read of `*vm.ip` at or past the end of `chunk->code` -/
  | fetchOutOfBounds
  /-- a read of `constants.values[i]` at or past `constants.count` -/
  | constantOutOfBounds
  /-- a `pop` or `peek` below `vm.stack` -/
  | stackUnderflow
  /-- a `push` that writes `*vm.stackTop` past the last slot of `vm.stack` -/
  | stackOverflow
  /-- the cast `AS_NUMBER` or `AS_STRING` applied to a value of another tag -/
  | badCast
  /-- signed overflow of an `int` -/
  | intOverflow
deriving DecidableEq, Repr

deriving instance DecidableEq for Except

variable {F : Type}

abbrev NIL_VAL : Value F := Value.nil
abbrev BOOL_VAL (b : Bool) : Value F := Value.bool b
abbrev NUMBER_VAL (n : F) : Value F := Value.number n
abbrev OBJ_VAL (s : ObjString) : Value F := Value.obj (Obj.string s)

def IS_NIL : Value F → Bool
  | .nil => true
  | _ => false

def IS_BOOL : Value F → Bool
  | .bool _ => true
  | _ => false

def IS_NUMBER : Value F → Bool
  | .number _ => true
  | _ => false

def IS_STRING : Value F → Bool
  | .obj (.string _) => true
  | _ => false

/-- The cast `AS_NUMBER`: reads the `double` member of the union; any other tag is a
fault. -/
def AS_NUMBER : Value F → Except Fault F
  | .number n => .ok n
  | _ => .error .badCast

/-- The cast `AS_STRING`: reads the object pointer as an `ObjString *`; any other tag is a
fault. -/
def AS_STRING : Value F → Except Fault ObjString
  | .obj (.string s) => .ok s
  | _ => .error .badCast

/-! ## The platform -/

/-- What the C platform and the absent `value.c` supply: `double` arithmetic and
comparison, the `"%g"` conversion, and `printValue`. -/
structure Host (F : Type) where
  add : F → F → F
  sub : F → F → F
  mul : F → F → F
  div : F → F → F
  neg : F → F
  gt : F → F → Bool
  lt : F → F → Bool
  eq : F → F → Bool
  /-- the characters `printf("%g", x)` produces -/
  fmtG : F → String
  /-- the characters `printValue(v)` writes to stdout -/
  printValue : Value F → String

/-- Modelled from the spec: `valuesEqual` of `value.c`, which is not among the sources:
"Nil equals only Nil; Bool compares by value; Number compares by IEEE value; Object
equality for strings compares contents"; values of different tags are never equal. -/
def valuesEqual (P : Host F) : Value F → Value F → Bool
  | .nil, .nil => true
  | .bool a, .bool b => a == b
  | .number a, .number b => P.eq a b
  | .obj a, .obj b => a == b
  | _, _ => false

def INT_MAX : Nat := 2147483647

/-- The C expression `a + b` on two non-negative `int`s: signed overflow is undefined. -/
def intAdd (a b : Nat) : Except Fault Nat :=
  if a + b ≤ INT_MAX then .ok (a + b) else .error .intOverflow

/-- The buffer after `snprintf(numStr, size, "%g", num)`: at most `size - 1` characters
of the conversion are kept. -/
def snprintfG (P : Host F) (size : Nat) (num : F) : String :=
  ⟨(P.fmtG num).data.take (size - 1)⟩

/-- Modelled from the spec: `takeString` of `object.c`, which is not among the sources:
the string object whose content is the first `length` characters of the buffer. -/
def takeString (chars : String) (length : Nat) : ObjString :=
  ⟨⟨chars.data.take length⟩⟩

/-! ## Chunks (chunk.h) -/

structure LineStart where
  offset : Int
  line : Int
deriving DecidableEq, Repr

/-- The `Chunk` of `chunk.h`: `code` holds the `count` instruction bytes (each a
`uint8_t`, so below 256), `constants` the `ValueArray`, `lines` the `lineCount`
entries of the line table.  The capacities play no part in execution. -/
structure Chunk (F : Type) where
  code : List Nat
  constants : List (Value F)
  lines : List LineStart
deriving DecidableEq, Repr

abbrev OP_CONSTANT : Nat := 0
abbrev OP_CONSTANT_LONG : Nat := 1
abbrev OP_NIL : Nat := 2
abbrev OP_TRUE : Nat := 3
abbrev OP_FALSE : Nat := 4
abbrev OP_POP : Nat := 5
abbrev OP_GET_LOCAL : Nat := 6
abbrev OP_GET_LOCAL_LONG : Nat := 7
abbrev OP_SET_LOCAL : Nat := 8
abbrev OP_SET_LOCAL_LONG : Nat := 9
abbrev OP_GET_GLOBAL : Nat := 10
abbrev OP_GET_GLOBAL_LONG : Nat := 11
abbrev OP_DEFINE_GLOBAL : Nat := 12
abbrev OP_DEFINE_GLOBAL_LONG : Nat := 13
abbrev OP_SET_GLOBAL : Nat := 14
abbrev OP_SET_GLOBAL_LONG : Nat := 15
abbrev OP_GET_UPVALUE : Nat := 16
abbrev OP_GET_UPVALUE_LONG : Nat := 17
abbrev OP_SET_UPVALUE : Nat := 18
abbrev OP_SET_UPVALUE_LONG : Nat := 19
abbrev OP_GET_PROPERTY : Nat := 20
abbrev OP_SET_PROPERTY : Nat := 21
abbrev OP_GET_SUPER : Nat := 22
abbrev OP_EQUAL : Nat := 23
abbrev OP_GREATER : Nat := 24
abbrev OP_LESS : Nat := 25
abbrev OP_ADD : Nat := 26
abbrev OP_SUBTRACT : Nat := 27
abbrev OP_MULTIPLY : Nat := 28
abbrev OP_DIVIDE : Nat := 29
abbrev OP_NOT : Nat := 30
abbrev OP_NEGATE : Nat := 31
abbrev OP_PRINT : Nat := 32
abbrev OP_JUMP : Nat := 33
abbrev OP_JUMP_IF_FALSE : Nat := 34
abbrev OP_LOOP : Nat := 35
abbrev OP_CALL : Nat := 36
abbrev OP_INVOKE : Nat := 37
abbrev OP_SUPER_INVOKE : Nat := 38
abbrev OP_CLOSURE : Nat := 39
abbrev OP_CLOSURE_LONG : Nat := 40
abbrev OP_CLOSE_UPVALUE : Nat := 41
abbrev OP_RETURN : Nat := 42
abbrev OP_CLASS : Nat := 43
abbrev OP_INHERIT : Nat := 44
abbrev OP_METHOD : Nat := 45

/-- Modelled from the spec: `getLine` of `chunk.c`, which is not among the sources:
"looks up the source line owning a given byte offset by scanning the line table for
the greatest recorded offset ≤ the query".  Where no entry qualifies the spec names no
line; the model then yields `-1`. -/
def getLine (chunk : Chunk F) (instruction : Int) : Int :=
  let best := chunk.lines.foldl
    (fun (acc : Option LineStart) e =>
      if e.offset ≤ instruction then
        match acc with
        | some b => if b.offset ≤ e.offset then some e else acc
        | none => some e
      else acc)
    none
  match best with
  | some e => e.line
  | none => -1

/-! ## The interpreter state (vm.c) -/

/-- The global `vm`: the chunk being run, `ip` as an offset into `chunk.code`, and the
operand stack: `stack` holds the slots `vm.stack .. vm.stackTop` (bottom first) and `free`
counts the unused slots of the array above `vm.stackTop`.  `out` and `err` collect what has
been written to stdout and stderr.  The object list and the intern table belong to the
heap and are not modelled. -/
structure VM (F : Type) where
  chunk : Chunk F
  ip : Nat
  stack : List (Value F)
  free : Nat
  out : String
  err : String
deriving DecidableEq, Repr

/-- The number of slots of the array `vm.stack`: `STACK_MAX` of the absent `vm.h`. -/
def VM.capacity (vm : VM F) : Nat := vm.stack.length + vm.free

inductive InterpretResult where
  | INTERPRET_OK
  | INTERPRET_COMPILE_ERROR
  | INTERPRET_RUNTIME_ERROR
deriving DecidableEq, Repr

/-- How one pass through the body of the `for (;;)` loop ends: `next` reaches the end of
the `switch` and loops; `done` is a `return` from `run`. -/
inductive Control (F : Type) where
  | next (vm : VM F)
  | done (result : InterpretResult) (vm : VM F)
deriving DecidableEq, Repr

/-- The function `resetStack`: `vm.stackTop = vm.stack`, which frees every slot. -/
def resetStack (vm : VM F) : VM F :=
  { vm with stack := [], free := vm.free + vm.stack.length }

/-- The function `runtimeError` for a format without conversions: the message and a
newline, then the line of the instruction at `vm.ip - 1`, then the stack is reset. -/
def runtimeError (vm : VM F) (format : String) : VM F :=
  let vm1 := { vm with err := vm.err ++ format ++ "\n" }
  let instruction : Nat := vm1.ip - 1
  let line := getLine vm1.chunk (instruction : Int)
  let vm2 := { vm1 with err := vm1.err ++ "[line " ++ toString line ++ "] in script\n" }
  resetStack vm2

def initVM (vm : VM F) : VM F :=
  resetStack vm

/-- The function `push`: it writes `*vm.stackTop` without a check, so with no free slot
the write lands past the array. -/
def push (vm : VM F) (value : Value F) : Except Fault (VM F) :=
  if vm.free = 0 then .error .stackOverflow
  else .ok { vm with stack := vm.stack ++ [value], free := vm.free - 1 }

def pop (vm : VM F) : Except Fault (Value F × VM F) :=
  match vm.stack.getLast? with
  | some v => .ok (v, { vm with stack := vm.stack.dropLast, free := vm.free + 1 })
  | none => .error .stackUnderflow

/-- The slot `vm.stackTop[-1 - distance]`. -/
def peek (vm : VM F) (distance : Nat) : Except Fault (Value F) :=
  match vm.stack.reverse[distance]? with
  | some v => .ok v
  | none => .error .stackUnderflow

/-- The function `isFalsey`; the `match` is `!AS_BOOL(value)`, read only under
`IS_BOOL(value)`. -/
def isFalsey (value : Value F) : Bool :=
  IS_NIL value || (IS_BOOL value && match value with
    | .bool b => !b
    | _ => false)

def stringifyAndConcatenateWithNumber (P : Host F) (num : F) (str : ObjString)
    (numberFirst : Bool) : Except Fault ObjString := do
  let numStr := snprintfG P 50 num
  let numLength := numStr.length
  let strLength := str.length
  let totalLength ← intAdd numLength strLength
  let _ ← intAdd totalLength 1
  let chars := if numberFirst then numStr ++ str.chars else str.chars ++ numStr
  pure (takeString chars totalLength)

def concatenate (vm : VM F) : Except Fault (VM F) := do
  let (vb, vm) ← pop vm
  let b ← AS_STRING vb
  let (va, vm) ← pop vm
  let a ← AS_STRING va
  let length ← intAdd a.length b.length
  let _ ← intAdd length 1
  let chars := a.chars ++ b.chars
  let result := takeString chars length
  push vm (OBJ_VAL result)

def READ_BYTE (vm : VM F) : Except Fault (Nat × VM F) :=
  match vm.chunk.code[vm.ip]? with
  | some b => .ok (b, { vm with ip := vm.ip + 1 })
  | none => .error .fetchOutOfBounds

def constantAt (vm : VM F) (i : Nat) : Except Fault (Value F) :=
  match vm.chunk.constants[i]? with
  | some v => .ok v
  | none => .error .constantOutOfBounds

def READ_CONSTANT (vm : VM F) : Except Fault (Value F × VM F) := do
  let (i, vm) ← READ_BYTE vm
  let v ← constantAt vm i
  pure (v, vm)

def READ_LONG_CONSTANT (vm : VM F) : Except Fault (Value F × VM F) := do
  let (byte1, vm) ← READ_BYTE vm
  let (byte2, vm) ← READ_BYTE vm
  let (byte3, vm) ← READ_BYTE vm
  let v ← constantAt vm (byte1 ||| (byte2 <<< 8) ||| (byte3 <<< 16))
  pure (v, vm)

/-- The C expression `t0(peek(0)) && t1(peek(1))`: `peek(1)` is read only when the
first test holds. -/
def peekAnd (vm : VM F) (t0 t1 : Value F → Bool) : Except Fault Bool := do
  let p0 ← peek vm 0
  if t0 p0 then
    let p1 ← peek vm 1
    pure (t1 p1)
  else
    pure false

/-- The C expression `!IS_NUMBER(peek(0)) || !IS_NUMBER(peek(1))`: `peek(1)` is read
only when the first test fails. -/
def notNumbers (vm : VM F) : Except Fault Bool := do
  let p0 ← peek vm 0
  if !IS_NUMBER p0 then
    pure true
  else
    let p1 ← peek vm 1
    pure (!IS_NUMBER p1)

def BINARY_OP {α : Type} (vm : VM F) (valueType : α → Value F) (op : F → F → α) :
    Except Fault (Control F) := do
  if (← notNumbers vm) then
    pure (.done .INTERPRET_RUNTIME_ERROR (runtimeError vm "Operands must be numbers."))
  else
    let (vb, vm) ← pop vm
    let b ← AS_NUMBER vb
    let (va, vm) ← pop vm
    let a ← AS_NUMBER va
    let vm ← push vm (valueType (op a b))
    pure (.next vm)

/-- The body of `case OP_ADD`. -/
def opAdd (P : Host F) (vm : VM F) : Except Fault (Control F) := do
  if (← peekAnd vm IS_STRING IS_STRING) then
    let vm ← concatenate vm
    pure (.next vm)
  else if (← peekAnd vm IS_NUMBER IS_NUMBER) then
    let (vb, vm) ← pop vm
    let b ← AS_NUMBER vb
    let (va, vm) ← pop vm
    let a ← AS_NUMBER va
    let vm ← push vm (NUMBER_VAL (P.add a b))
    pure (.next vm)
  else if (← peekAnd vm IS_STRING IS_NUMBER) then
    let (vs, vm) ← pop vm
    let str ← AS_STRING vs
    let (vn, vm) ← pop vm
    let num ← AS_NUMBER vn
    let r ← stringifyAndConcatenateWithNumber P num str true
    let vm ← push vm (OBJ_VAL r)
    pure (.next vm)
  else if (← peekAnd vm IS_NUMBER IS_STRING) then
    let (vn, vm) ← pop vm
    let num ← AS_NUMBER vn
    let (vs, vm) ← pop vm
    let str ← AS_STRING vs
    let r ← stringifyAndConcatenateWithNumber P num str false
    let vm ← push vm (OBJ_VAL r)
    pure (.next vm)
  else
    pure (.done .INTERPRET_RUNTIME_ERROR (runtimeError vm
      "Operands must be two numbers, two strings, or a combination of strings and numbers."))

/-- The `switch` of `run` on an opcode already fetched (`vm.ip` is past it).  A byte
without a `case` falls out of the `switch`. -/
def execute (P : Host F) (instruction : Nat) (vm : VM F) : Except Fault (Control F) :=
  if instruction = OP_CONSTANT then do
    let (constant, vm) ← READ_CONSTANT vm
    let vm ← push vm constant
    pure (.next vm)
  else if instruction = OP_CONSTANT_LONG then do
    let (constant, vm) ← READ_LONG_CONSTANT vm
    let vm ← push vm constant
    pure (.next vm)
  else if instruction = OP_NIL then do
    let vm ← push vm NIL_VAL
    pure (.next vm)
  else if instruction = OP_TRUE then do
    let vm ← push vm (BOOL_VAL true)
    pure (.next vm)
  else if instruction = OP_FALSE then do
    let vm ← push vm (BOOL_VAL false)
    pure (.next vm)
  else if instruction = OP_EQUAL then do
    let (b, vm) ← pop vm
    let (a, vm) ← pop vm
    let vm ← push vm (BOOL_VAL (valuesEqual P a b))
    pure (.next vm)
  else if instruction = OP_GREATER then
    BINARY_OP vm BOOL_VAL P.gt
  else if instruction = OP_LESS then
    BINARY_OP vm BOOL_VAL P.lt
  else if instruction = OP_ADD then
    opAdd P vm
  else if instruction = OP_SUBTRACT then
    BINARY_OP vm NUMBER_VAL P.sub
  else if instruction = OP_MULTIPLY then
    BINARY_OP vm NUMBER_VAL P.mul
  else if instruction = OP_DIVIDE then
    BINARY_OP vm NUMBER_VAL P.div
  else if instruction = OP_NOT then do
    let (v, vm) ← pop vm
    let vm ← push vm (BOOL_VAL (isFalsey v))
    pure (.next vm)
  else if instruction = OP_NEGATE then do
    let p0 ← peek vm 0
    if !IS_NUMBER p0 then
      pure (.done .INTERPRET_RUNTIME_ERROR (runtimeError vm "Operand must be a number."))
    else
      let (v, vm) ← pop vm
      let n ← AS_NUMBER v
      let vm ← push vm (NUMBER_VAL (P.neg n))
      pure (.next vm)
  else if instruction = OP_RETURN then do
    let (v, vm) ← pop vm
    let vm := { vm with out := vm.out ++ P.printValue v }
    let vm := { vm with out := vm.out ++ "\n" }
    pure (.done .INTERPRET_OK vm)
  else
    pure (.next vm)

/-- One pass through the body of the `for (;;)` loop of `run`: fetch the opcode, then
dispatch. -/
def step (P : Host F) (vm : VM F) : Except Fault (Control F) := do
  let (instruction, vm) ← READ_BYTE vm
  execute P instruction vm

/-- The loop of `run`, for at most `fuel` passes: `none` when the passes are used up
before a `return`. -/
def runLoop (P : Host F) : Nat → VM F → Option (Except Fault (InterpretResult × VM F))
  | 0, _ => none
  | fuel + 1, vm =>
    match step P vm with
    | .error f => some (.error f)
    | .ok (.done result vm1) => some (.ok (result, vm1))
    | .ok (.next vm1) => runLoop P fuel vm1

/-- The function `run`: the loop, allowed `code.length - ip + 1` passes (a pass that
does not return moves `ip` forward, and a fetch past the end of the code is a fault). -/
def run (P : Host F) (vm : VM F) : Option (Except Fault (InterpretResult × VM F)) :=
  runLoop P (vm.chunk.code.length - vm.ip + 1) vm

/-- The function `interpret`.  The compiler is not among the sources: `compile` is a
parameter that reports success or failure together with the chunk it has filled; what
else it does (its own diagnostics, the objects it allocates) is outside the model, and so
is the freeing of the chunk. -/
def interpret (P : Host F) (compile : String → Bool × Chunk F) (vm : VM F) (source : String) :
    Option (Except Fault (InterpretResult × VM F)) :=
  match compile source with
  | (false, _) => some (.ok (.INTERPRET_COMPILE_ERROR, vm))
  | (true, chunk) => run P { vm with chunk := chunk, ip := 0 }

/-! ## A concrete host -/

/-- A host over the integers, for running the definitions on concrete chunks.  It
agrees with `double` arithmetic, comparison and `"%g"` where operands and results are
integers of magnitude below `10^6`, the divisor of `div` is not 0 and divides exactly,
and C does not produce a negative zero: the integers have none, so where C yields `-0.0`
(the negation of 0, a product or quotient of 0 and a negative number), printed `-0` by
`"%g"`, this host yields 0.  No theorem depends on this host except the concrete runs. -/
def intHost : Host Int where
  add := fun a b => a + b
  sub := fun a b => a - b
  mul := fun a b => a * b
  div := fun a b => a / b
  neg := fun a => -a
  gt := fun a b => decide (a > b)
  lt := fun a b => decide (a < b)
  eq := fun a b => decide (a = b)
  fmtG := fun a => toString a
  printValue := fun v =>
    match v with
    | .nil => "nil"
    | .bool true => "true"
    | .bool false => "false"
    | .number n => toString n
    | .obj (.string s) => s.chars
    | .obj (.other _) => "<obj>"

/-- A text of `INT_MAX - 1` characters, the longest whose buffer of `length + 1` chars
can be allocated. -/
def longText : String := ⟨List.replicate (INT_MAX - 1) 'a'⟩

/-- A machine with a stack of 256 slots about to run the one-instruction chunk `[op]`,
attributed to source line 1, on a given stack. -/
def opState (op : Nat) (stack : List (Value Int)) : VM Int :=
  { chunk := ⟨[op], [], [⟨0, 1⟩]⟩, ip := 0, stack := stack, free := 256 - stack.length,
    out := "", err := "" }

/-- What a handler without operand bytes may do to the machine it is given: go on with
another stack in the same array, return a runtime error through `runtimeError`, or leave
defined behaviour by a stack underflow, a stack overflow or an `int` overflow. -/
def Post (vm : VM F) (r : Except Fault (Control F)) : Prop :=
  (∃ st fr, r = .ok (.next { vm with stack := st, free := fr })
    ∧ st.length + fr = vm.stack.length + vm.free)
  ∨ (∃ msg, r = .ok (.done .INTERPRET_RUNTIME_ERROR (runtimeError vm msg)))
  ∨ r = .error .stackUnderflow ∨ r = .error .stackOverflow ∨ r = .error .intOverflow

/-- The opcodes that have a `case` in the `switch` of `run`. -/
def implemented : List Nat :=
  [OP_CONSTANT, OP_CONSTANT_LONG, OP_NIL, OP_TRUE, OP_FALSE, OP_EQUAL, OP_GREATER, OP_LESS,
    OP_ADD, OP_SUBTRACT, OP_MULTIPLY, OP_DIVIDE, OP_NOT, OP_NEGATE, OP_RETURN]

/-- The opcodes whose `case` calls `runtimeError`. -/
def failing : List Nat :=
  [OP_ADD, OP_SUBTRACT, OP_MULTIPLY, OP_DIVIDE, OP_GREATER, OP_LESS, OP_NEGATE]

/-- The machine a pass of the loop hands on. -/
def Control.vm : Control F → VM F
  | .next vm => vm
  | .done _ vm => vm

/-- The number of operands the handler of an implemented opcode takes from the stack:
none for the literal pushes, one for `OP_NOT`, `OP_NEGATE` and `OP_RETURN`, two for the
binary operators. -/
def arity (b : Nat) : Nat :=
  if b ∈ [OP_CONSTANT, OP_CONSTANT_LONG, OP_NIL, OP_TRUE, OP_FALSE] then 0
  else if b ∈ [OP_NOT, OP_NEGATE, OP_RETURN] then 1
  else 2

/-- The depth the stack-depth discipline names for a handler that succeeds on a stack of
depth `d`: `d + 1` for the literal pushes, `d` for `OP_NOT` and `OP_NEGATE`, `d - 1` for
the binary operators and `OP_RETURN`. -/
def depthAfter (b d : Nat) : Nat :=
  if b ∈ [OP_CONSTANT, OP_CONSTANT_LONG, OP_NIL, OP_TRUE, OP_FALSE] then d + 1
  else if b ∈ [OP_NOT, OP_NEGATE] then d
  else d - 1

/-- A machine with a stack of 256 slots about to run `code` over a pool of 300 constants,
constant `k` being the number `k`. -/
def poolState (code : List Nat) (stack : List (Value Int)) : VM Int :=
  { chunk := ⟨code, (List.range 300).map (fun (k : Nat) => NUMBER_VAL (Int.ofNat k)), [⟨0, 1⟩]⟩,
    ip := 0, stack := stack, free := 256 - stack.length, out := "", err := "" }

/-- A compiler that accepts every source and fills the chunk with `chunk`. -/
def compileTo (chunk : Chunk Int) : String → Bool × Chunk Int :=
  fun _ => (true, chunk)

/-- A machine with a stack of 256 slots, just initialised: no chunk yet, an empty stack,
nothing written. -/
def freshVM : VM Int :=
  { chunk := ⟨[], [], []⟩, ip := 0, stack := [], free := 256, out := "", err := "" }

/-- The machine after `interpret` has run `OP_NIL, OP_TRUE, OP_RETURN` on `freshVM`: the
run succeeded and left `nil` on the stack. -/
def staleVM : VM Int :=
  { chunk := ⟨[OP_NIL, OP_TRUE, OP_RETURN], [], []⟩, ip := 3, stack := [NIL_VAL], free := 255,
    out := "true\n", err := "" }

/-- A machine whose stack of `cap` slots is full, every slot holding `nil`, about to run
`code` over the one-constant pool `[nil]`: `vm.stackTop` is one past the last slot. -/
def fullState (cap : Nat) (code : List Nat) : VM Int :=
  { chunk := ⟨code, [NIL_VAL], [⟨0, 1⟩]⟩, ip := 0, stack := List.replicate cap NIL_VAL,
    free := 0, out := "", err := "" }

/-- A chunk of `n` instructions `OP_NIL` followed by `OP_RETURN`. -/
def nilChunk (n : Nat) : Chunk Int :=
  ⟨List.replicate n OP_NIL ++ [OP_RETURN], [], [⟨0, 1⟩]⟩

/-! ## Text and arithmetic lemmas -/

theorem takeString_all (chars : String) (n : Nat) (h : n = chars.length) :
    takeString chars n = ⟨chars⟩ := by
  subst h
  show ObjString.mk ⟨chars.data.take chars.data.length⟩ = ⟨chars⟩
  rw [List.take_length]

theorem ObjString.length_append (a b : String) :
    (ObjString.mk (a ++ b)).length = a.length + b.length := by
  simp [ObjString.length]

theorem intAdd_ok (a b : Nat) (h : a + b ≤ INT_MAX) : intAdd a b = .ok (a + b) := by
  simp [intAdd, h]

theorem intAdd_overflow (a b : Nat) (h : INT_MAX < a + b) : intAdd a b = .error .intOverflow := by
  simp [intAdd, Nat.not_le.mpr h]

theorem longText_length : longText.length = INT_MAX - 1 :=
  List.length_replicate (INT_MAX - 1) 'a'

theorem stringify_ok (P : Host F) (num : F) (t : String) (numberFirst : Bool)
    (hfit : (snprintfG P 50 num).length + t.length + 1 ≤ INT_MAX) :
    stringifyAndConcatenateWithNumber P num ⟨t⟩ numberFirst =
      .ok ⟨if numberFirst then snprintfG P 50 num ++ t else t ++ snprintfG P 50 num⟩ := by
  have h1 : (snprintfG P 50 num).length + t.length ≤ INT_MAX := by omega
  cases numberFirst <;>
    simp [stringifyAndConcatenateWithNumber, ObjString.length, intAdd_ok _ _ h1,
      intAdd_ok _ _ hfit, bind, Except.bind, pure, Except.pure] <;>
    apply takeString_all <;> simp [Nat.add_comm]

theorem stringify_overflow (P : Host F) (num : F) (t : String) (numberFirst : Bool)
    (hover : INT_MAX < (snprintfG P 50 num).length + t.length + 1) :
    stringifyAndConcatenateWithNumber P num ⟨t⟩ numberFirst = .error .intOverflow := by
  by_cases h1 : (snprintfG P 50 num).length + t.length ≤ INT_MAX
  · simp [stringifyAndConcatenateWithNumber, ObjString.length, intAdd_ok _ _ h1,
      intAdd_overflow _ _ hover, bind, Except.bind]
  · simp [stringifyAndConcatenateWithNumber, ObjString.length,
      intAdd_overflow _ _ (Nat.not_le.mp h1), bind, Except.bind]

/-! ## One step of `OP_ADD` -/

theorem step_add_numbers (P : Host F) (vm : VM F) (s : List (Value F)) (a b : F)
    (hfetch : vm.chunk.code[vm.ip]? = some OP_ADD)
    (hstack : vm.stack = s ++ [NUMBER_VAL a, NUMBER_VAL b]) :
    step P vm =
      .ok (.next { vm with ip := vm.ip + 1, stack := s ++ [NUMBER_VAL (P.add a b)],
                                  free := vm.free + 1 }) := by
  simp [step, READ_BYTE, hfetch, execute, opAdd, peekAnd, peek, pop, push, hstack, IS_STRING,
    IS_NUMBER, AS_NUMBER, bind, Except.bind, pure, Except.pure]

theorem step_concat_ok (P : Host F) (vm : VM F) (s : List (Value F)) (s1 s2 : String)
    (hfetch : vm.chunk.code[vm.ip]? = some OP_ADD)
    (hstack : vm.stack = s ++ [OBJ_VAL ⟨s1⟩, OBJ_VAL ⟨s2⟩])
    (hfit : s1.length + s2.length + 1 ≤ INT_MAX) :
    step P vm = .ok (.next { vm with ip := vm.ip + 1, stack := s ++ [OBJ_VAL ⟨s1 ++ s2⟩],
                                     free := vm.free + 1 }) := by
  have h1 : s1.length + s2.length ≤ INT_MAX := by omega
  simp [step, READ_BYTE, hfetch, execute, opAdd, peekAnd, peek, pop, push, hstack, IS_STRING,
    concatenate, AS_STRING, ObjString.length, intAdd_ok _ _ h1, intAdd_ok _ _ hfit,
    takeString_all, bind, Except.bind, pure, Except.pure]

theorem step_concat_overflow (P : Host F) (vm : VM F) (s : List (Value F)) (s1 s2 : String)
    (hfetch : vm.chunk.code[vm.ip]? = some OP_ADD)
    (hstack : vm.stack = s ++ [OBJ_VAL ⟨s1⟩, OBJ_VAL ⟨s2⟩])
    (hover : INT_MAX < s1.length + s2.length + 1) :
    step P vm = .error .intOverflow := by
  by_cases h1 : s1.length + s2.length ≤ INT_MAX
  · simp [step, READ_BYTE, hfetch, execute, opAdd, peekAnd, peek, pop, push, hstack, IS_STRING,
      concatenate, AS_STRING, ObjString.length, intAdd_ok _ _ h1, intAdd_overflow _ _ hover,
      bind, Except.bind, pure, Except.pure]
  · simp [step, READ_BYTE, hfetch, execute, opAdd, peekAnd, peek, pop, push, hstack, IS_STRING,
      concatenate, AS_STRING, ObjString.length, intAdd_overflow _ _ (Nat.not_le.mp h1),
      bind, Except.bind, pure, Except.pure]

/-- The step of `OP_ADD` with the number pushed first and the string on top. -/
theorem step_number_string (P : Host F) (vm : VM F) (s : List (Value F)) (n : F) (t : String)
    (hfetch : vm.chunk.code[vm.ip]? = some OP_ADD)
    (hstack : vm.stack = s ++ [NUMBER_VAL n, OBJ_VAL ⟨t⟩]) :
    step P vm =
      (stringifyAndConcatenateWithNumber P n ⟨t⟩ true).map
        (fun r => .next { vm with ip := vm.ip + 1, stack := s ++ [OBJ_VAL r],
                                  free := vm.free + 1 }) := by
  cases h : stringifyAndConcatenateWithNumber P n ⟨t⟩ true <;>
  simp [step, READ_BYTE, hfetch, execute, opAdd, peekAnd, peek, pop, push, hstack, IS_STRING,
    IS_NUMBER, AS_STRING, AS_NUMBER, h, Except.map, bind, Except.bind, pure, Except.pure]

/-- The step of `OP_ADD` with the string pushed first and the number on top. -/
theorem step_string_number (P : Host F) (vm : VM F) (s : List (Value F)) (n : F) (t : String)
    (hfetch : vm.chunk.code[vm.ip]? = some OP_ADD)
    (hstack : vm.stack = s ++ [OBJ_VAL ⟨t⟩, NUMBER_VAL n]) :
    step P vm =
      (stringifyAndConcatenateWithNumber P n ⟨t⟩ false).map
        (fun r => .next { vm with ip := vm.ip + 1, stack := s ++ [OBJ_VAL r],
                                  free := vm.free + 1 }) := by
  cases h : stringifyAndConcatenateWithNumber P n ⟨t⟩ false <;>
  simp [step, READ_BYTE, hfetch, execute, opAdd, peekAnd, peek, pop, push, hstack, IS_STRING,
    IS_NUMBER, AS_STRING, AS_NUMBER, h, Except.map, bind, Except.bind, pure, Except.pure]

theorem step_add_error (P : Host F) (vm : VM F) (s : List (Value F)) (x y : Value F)
    (hfetch : vm.chunk.code[vm.ip]? = some OP_ADD)
    (hstack : vm.stack = s ++ [x, y])
    (hbad : ¬ ((IS_STRING x ∧ IS_STRING y) ∨ (IS_NUMBER x ∧ IS_NUMBER y)
      ∨ (IS_NUMBER x ∧ IS_STRING y) ∨ (IS_STRING x ∧ IS_NUMBER y))) :
    step P vm = .ok (.done .INTERPRET_RUNTIME_ERROR (runtimeError { vm with ip := vm.ip + 1 }
      "Operands must be two numbers, two strings, or a combination of strings and numbers.")) := by
  rcases x with _ | _ | _ | (_ | _) <;> rcases y with _ | _ | _ | (_ | _) <;>
    simp [IS_STRING, IS_NUMBER] at hbad <;>
    simp [step, READ_BYTE, hfetch, execute, opAdd, peekAnd, peek, hstack, IS_STRING,
      IS_NUMBER, bind, Except.bind, pure, Except.pure]

theorem step_add_permitted (P : Host F) (vm : VM F) (s : List (Value F)) (x y : Value F)
    (hfetch : vm.chunk.code[vm.ip]? = some OP_ADD)
    (hstack : vm.stack = s ++ [x, y])
    (hok : (IS_STRING x ∧ IS_STRING y) ∨ (IS_NUMBER x ∧ IS_NUMBER y)
      ∨ (IS_NUMBER x ∧ IS_STRING y) ∨ (IS_STRING x ∧ IS_NUMBER y)) :
    (∃ vm1, step P vm = .ok (.next vm1)) ∨ step P vm = .error .intOverflow := by
  rcases x with _ | _ | a | (⟨⟨s1⟩⟩ | _) <;> rcases y with _ | _ | b | (⟨⟨s2⟩⟩ | _) <;>
    simp [IS_STRING, IS_NUMBER] at hok
  · exact Or.inl ⟨_, step_add_numbers P vm s a b hfetch hstack⟩
  · rw [step_number_string P vm s a s2 hfetch hstack]
    by_cases h : (snprintfG P 50 a).length + s2.length + 1 ≤ INT_MAX
    · rw [stringify_ok P a s2 true h]; exact Or.inl ⟨_, rfl⟩
    · rw [stringify_overflow P a s2 true (Nat.not_le.mp h)]; exact Or.inr rfl
  · rw [step_string_number P vm s b s1 hfetch hstack]
    by_cases h : (snprintfG P 50 b).length + s1.length + 1 ≤ INT_MAX
    · rw [stringify_ok P b s1 false h]; exact Or.inl ⟨_, rfl⟩
    · rw [stringify_overflow P b s1 false (Nat.not_le.mp h)]; exact Or.inr rfl
  · by_cases h : s1.length + s2.length + 1 ≤ INT_MAX
    · exact Or.inl ⟨_, step_concat_ok P vm s s1 s2 hfetch hstack h⟩
    · exact Or.inr (step_concat_overflow P vm s s1 s2 hfetch hstack (Nat.not_le.mp h))

/-! ## The loop -/

theorem run_of_step_done (P : Host F) (vm vm1 : VM F) (r : InterpretResult)
    (h : step P vm = .ok (.done r vm1)) : run P vm = some (.ok (r, vm1)) := by
  simp [run, runLoop, h]

theorem runtimeError_stack (vm : VM F) (format : String) : (runtimeError vm format).stack = [] :=
  rfl

theorem runtimeError_err (vm : VM F) (format : String) :
    (runtimeError vm format).err =
      vm.err ++ format ++ "\n" ++ "[line " ++ toString (getLine vm.chunk ((vm.ip - 1 : Nat) : Int))
        ++ "] in script\n" :=
  rfl

/-! ## The binary operators, `OP_EQUAL`, `OP_NOT`, `OP_NEGATE`, `OP_RETURN` -/

theorem step_eq_execute (P : Host F) (vm : VM F) (op : Nat)
    (hfetch : vm.chunk.code[vm.ip]? = some op) :
    step P vm = execute P op { vm with ip := vm.ip + 1 } := by
  simp [step, READ_BYTE, hfetch, bind, Except.bind]

theorem BINARY_OP_numbers {α : Type} (vm : VM F) (valueType : α → Value F) (op : F → F → α)
    (s : List (Value F)) (a b : F) (hstack : vm.stack = s ++ [NUMBER_VAL a, NUMBER_VAL b]) :
    BINARY_OP vm valueType op = .ok (.next { vm with stack := s ++ [valueType (op a b)],
                                                     free := vm.free + 1 }) := by
  simp [BINARY_OP, notNumbers, peek, pop, push, hstack, IS_NUMBER, AS_NUMBER, bind, Except.bind,
    pure, Except.pure]

theorem BINARY_OP_error {α : Type} (vm : VM F) (valueType : α → Value F) (op : F → F → α)
    (s : List (Value F)) (x y : Value F) (hstack : vm.stack = s ++ [x, y])
    (hbad : IS_NUMBER x = false ∨ IS_NUMBER y = false) :
    BINARY_OP vm valueType op =
      .ok (.done .INTERPRET_RUNTIME_ERROR (runtimeError vm "Operands must be numbers.")) := by
  rcases x with _ | _ | _ | _ <;> rcases y with _ | _ | _ | _ <;>
    simp [IS_NUMBER] at hbad <;>
    simp [BINARY_OP, notNumbers, peek, hstack, IS_NUMBER, bind, Except.bind, pure, Except.pure]

theorem execute_binary (P : Host F) (vm : VM F) :
    execute P OP_SUBTRACT vm = BINARY_OP vm NUMBER_VAL P.sub
    ∧ execute P OP_MULTIPLY vm = BINARY_OP vm NUMBER_VAL P.mul
    ∧ execute P OP_DIVIDE vm = BINARY_OP vm NUMBER_VAL P.div
    ∧ execute P OP_GREATER vm = BINARY_OP vm BOOL_VAL P.gt
    ∧ execute P OP_LESS vm = BINARY_OP vm BOOL_VAL P.lt := by
  simp [execute]

theorem step_binary_error (P : Host F) (vm : VM F) (s : List (Value F)) (x y : Value F) (op : Nat)
    (hop : op = OP_SUBTRACT ∨ op = OP_MULTIPLY ∨ op = OP_DIVIDE ∨ op = OP_GREATER ∨ op = OP_LESS)
    (hfetch : vm.chunk.code[vm.ip]? = some op)
    (hstack : vm.stack = s ++ [x, y])
    (hbad : IS_NUMBER x = false ∨ IS_NUMBER y = false) :
    step P vm = .ok (.done .INTERPRET_RUNTIME_ERROR
      (runtimeError { vm with ip := vm.ip + 1 } "Operands must be numbers.")) := by
  rw [step_eq_execute P vm op hfetch]
  obtain ⟨h1, h2, h3, h4, h5⟩ := execute_binary P { vm with ip := vm.ip + 1 }
  rcases hop with h | h | h | h | h <;> subst h
  · rw [h1]; exact BINARY_OP_error _ _ _ s x y hstack hbad
  · rw [h2]; exact BINARY_OP_error _ _ _ s x y hstack hbad
  · rw [h3]; exact BINARY_OP_error _ _ _ s x y hstack hbad
  · rw [h4]; exact BINARY_OP_error _ _ _ s x y hstack hbad
  · rw [h5]; exact BINARY_OP_error _ _ _ s x y hstack hbad

theorem step_binary_numbers (P : Host F) (vm : VM F) (s : List (Value F)) (a b : F) (op : Nat)
    (hop : op = OP_SUBTRACT ∨ op = OP_MULTIPLY ∨ op = OP_DIVIDE ∨ op = OP_GREATER ∨ op = OP_LESS)
    (hfetch : vm.chunk.code[vm.ip]? = some op)
    (hstack : vm.stack = s ++ [NUMBER_VAL a, NUMBER_VAL b]) :
    ∃ v, step P vm
      = .ok (.next { vm with ip := vm.ip + 1, stack := s ++ [v], free := vm.free + 1 }) := by
  rw [step_eq_execute P vm op hfetch]
  obtain ⟨h1, h2, h3, h4, h5⟩ := execute_binary P { vm with ip := vm.ip + 1 }
  rcases hop with h | h | h | h | h <;> subst h
  · rw [h1]; exact ⟨_, BINARY_OP_numbers _ _ _ s a b hstack⟩
  · rw [h2]; exact ⟨_, BINARY_OP_numbers _ _ _ s a b hstack⟩
  · rw [h3]; exact ⟨_, BINARY_OP_numbers _ _ _ s a b hstack⟩
  · rw [h4]; exact ⟨_, BINARY_OP_numbers _ _ _ s a b hstack⟩
  · rw [h5]; exact ⟨_, BINARY_OP_numbers _ _ _ s a b hstack⟩

theorem step_negate_number (P : Host F) (vm : VM F) (s : List (Value F)) (n : F)
    (hfetch : vm.chunk.code[vm.ip]? = some OP_NEGATE)
    (hstack : vm.stack = s ++ [NUMBER_VAL n]) :
    step P vm = .ok (.next { vm with ip := vm.ip + 1, stack := s ++ [NUMBER_VAL (P.neg n)] }) := by
  simp [step, READ_BYTE, hfetch, execute, peek, pop, push, hstack, IS_NUMBER, AS_NUMBER, bind,
    Except.bind, pure, Except.pure]

theorem step_negate_error (P : Host F) (vm : VM F) (s : List (Value F)) (v : Value F)
    (hfetch : vm.chunk.code[vm.ip]? = some OP_NEGATE)
    (hstack : vm.stack = s ++ [v])
    (hbad : IS_NUMBER v = false) :
    step P vm = .ok (.done .INTERPRET_RUNTIME_ERROR
      (runtimeError { vm with ip := vm.ip + 1 } "Operand must be a number.")) := by
  simp [step, READ_BYTE, hfetch, execute, peek, hstack, hbad, bind, Except.bind, pure,
    Except.pure]

theorem step_return (P : Host F) (vm : VM F) (s : List (Value F)) (v : Value F)
    (hfetch : vm.chunk.code[vm.ip]? = some OP_RETURN)
    (hstack : vm.stack = s ++ [v]) :
    step P vm = .ok (.done .INTERPRET_OK
      { vm with ip := vm.ip + 1, stack := s, free := vm.free + 1,
                out := vm.out ++ P.printValue v ++ "\n" }) := by
  simp [step, READ_BYTE, hfetch, execute, pop, hstack, bind, Except.bind, pure, Except.pure]

theorem runtimeError_after_fetch (vm : VM F) (format : String) :
    runtimeError { vm with ip := vm.ip + 1 } format =
      { vm with ip := vm.ip + 1, stack := [], free := vm.free + vm.stack.length,
                err := vm.err ++ format ++ "\n" ++ "[line "
                  ++ toString (getLine vm.chunk (vm.ip : Int)) ++ "] in script\n" } := by
  simp [runtimeError, resetStack]

/-! ## What one pass may do, for an arbitrary stack -/

theorem stack_cases (l : List (Value F)) :
    l = [] ∨ (∃ x, l = [x]) ∨ ∃ s x y, l = s ++ [x, y] := by
  rcases List.eq_nil_or_concat l with h | ⟨l1, y, h⟩
  · exact Or.inl h
  · rcases List.eq_nil_or_concat l1 with h1 | ⟨s, x, h1⟩
    · subst h1; exact Or.inr (Or.inl ⟨y, by simpa using h⟩)
    · subst h1; exact Or.inr (Or.inr ⟨s, x, y, by simpa using h⟩)

theorem intAdd_cases (a b : Nat) : intAdd a b = .ok (a + b) ∨ intAdd a b = .error .intOverflow := by
  unfold intAdd
  split_ifs <;> simp

theorem stringify_cases (P : Host F) (num : F) (str : ObjString) (numberFirst : Bool) :
    (∃ r, stringifyAndConcatenateWithNumber P num str numberFirst = .ok r)
    ∨ stringifyAndConcatenateWithNumber P num str numberFirst = .error .intOverflow := by
  unfold stringifyAndConcatenateWithNumber
  rcases intAdd_cases (snprintfG P 50 num).length str.length with h1 | h1 <;>
    rcases intAdd_cases ((snprintfG P 50 num).length + str.length) 1 with h2 | h2 <;>
    simp [h1, h2, bind, Except.bind, pure, Except.pure]

theorem opAdd_post (P : Host F) (vm : VM F) : Post vm (opAdd P vm) := by
  rcases stack_cases vm.stack with hs | ⟨x, hs⟩ | ⟨s, x, y, hs⟩
  · simp [Post, opAdd, peekAnd, peek, hs, bind, Except.bind]
  · rcases x with _ | _ | _ | (_ | _) <;>
      simp [Post, opAdd, peekAnd, peek, hs, IS_STRING, IS_NUMBER, bind, Except.bind, pure,
        Except.pure]
  · rcases x with _ | _ | a | (⟨⟨s1⟩⟩ | _) <;> rcases y with _ | _ | b | (⟨⟨s2⟩⟩ | _)
    case number.obj.string.mk =>
      rcases stringify_cases P a ⟨s2⟩ true with ⟨r, h⟩ | h <;>
      simp [Post, opAdd, peekAnd, peek, pop, push, h, hs, IS_STRING, IS_NUMBER, AS_STRING,
        AS_NUMBER, bind, Except.bind, pure, Except.pure]
      exact ⟨_, _, ⟨rfl, rfl⟩, by
        simp only [List.length_append, List.length_cons, List.length_nil]; omega⟩
    case obj.string.mk.number =>
      rcases stringify_cases P b ⟨s1⟩ false with ⟨r, h⟩ | h <;>
      simp [Post, opAdd, peekAnd, peek, pop, push, h, hs, IS_STRING, IS_NUMBER, AS_STRING,
        AS_NUMBER, bind, Except.bind, pure, Except.pure]
      exact ⟨_, _, ⟨rfl, rfl⟩, by
        simp only [List.length_append, List.length_cons, List.length_nil]; omega⟩
    case obj.string.mk.obj.string.mk =>
      rcases intAdd_cases (ObjString.mk s1).length (ObjString.mk s2).length with h1 | h1 <;>
      rcases intAdd_cases ((ObjString.mk s1).length + (ObjString.mk s2).length) 1 with h2 | h2 <;>
      simp [Post, opAdd, peekAnd, peek, pop, push, concatenate, h1, h2, hs, IS_STRING, AS_STRING,
        bind, Except.bind, pure, Except.pure]
      exact ⟨_, _, ⟨rfl, rfl⟩, by
        simp only [List.length_append, List.length_cons, List.length_nil]; omega⟩
    case number.number =>
      simp [Post, opAdd, peekAnd, peek, pop, push, hs, IS_STRING, IS_NUMBER, AS_STRING,
        AS_NUMBER, bind, Except.bind, pure, Except.pure]
      exact ⟨_, _, ⟨rfl, rfl⟩, by
          simp only [List.length_append, List.length_cons, List.length_nil]; omega⟩
    all_goals
      simp [Post, opAdd, peekAnd, peek, pop, push, hs, IS_STRING, IS_NUMBER, AS_STRING,
        AS_NUMBER, bind, Except.bind, pure, Except.pure]

theorem BINARY_OP_post {α : Type} (vm : VM F) (valueType : α → Value F) (op : F → F → α) :
    Post vm (BINARY_OP vm valueType op) := by
  rcases stack_cases vm.stack with hs | ⟨x, hs⟩ | ⟨s, x, y, hs⟩
  · simp [Post, BINARY_OP, notNumbers, peek, hs, bind, Except.bind]
  · rcases x with _ | _ | _ | _ <;>
      simp [Post, BINARY_OP, notNumbers, peek, hs, IS_NUMBER, bind, Except.bind, pure,
        Except.pure]
  · rcases x with _ | _ | a | _ <;> rcases y with _ | _ | b | _
    case number.number =>
      simp [Post, BINARY_OP, notNumbers, peek, pop, push, hs, IS_NUMBER, AS_NUMBER, bind,
        Except.bind, pure, Except.pure]
      exact ⟨_, _, ⟨rfl, rfl⟩, by
          simp only [List.length_append, List.length_cons, List.length_nil]; omega⟩
    all_goals
      simp [Post, BINARY_OP, notNumbers, peek, pop, push, hs, IS_NUMBER, AS_NUMBER, bind,
        Except.bind, pure, Except.pure]

theorem execute_unimplemented (P : Host F) (b : Nat) (vm : VM F) (hb : b ∉ implemented) :
    execute P b vm = .ok (.next vm) := by
  simp only [implemented, List.mem_cons, List.mem_singleton, not_or, List.not_mem_nil,
    not_false_eq_true, and_true] at hb
  obtain ⟨h0, h1, h2, h3, h4, h5, h6, h7, h8, h9, h10, h11, h12, h13, h14⟩ := hb
  simp [execute, h0, h1, h2, h3, h4, h5, h6, h7, h8, h9, h10, h11, h12, h13, h14, pure,
    Except.pure]

theorem execute_constant (P : Host F) (vm : VM F) :
    (∃ i v, vm.chunk.code[vm.ip]? = some i ∧ vm.chunk.constants[i]? = some v
      ∧ 0 < vm.free
      ∧ execute P OP_CONSTANT vm
          = .ok (.next { vm with ip := vm.ip + 1, stack := vm.stack ++ [v],
                                 free := vm.free - 1 }))
    ∨ execute P OP_CONSTANT vm = .error .fetchOutOfBounds
    ∨ execute P OP_CONSTANT vm = .error .constantOutOfBounds
    ∨ execute P OP_CONSTANT vm = .error .stackOverflow := by
  cases h1 : vm.chunk.code[vm.ip]? with
  | none => simp [execute, READ_CONSTANT, READ_BYTE, h1, bind, Except.bind]
  | some i =>
    cases h2 : vm.chunk.constants[i]? with
    | none => simp [execute, READ_CONSTANT, READ_BYTE, constantAt, h1, h2, bind, Except.bind]
    | some v =>
      by_cases hf : vm.free = 0
      · simp [execute, READ_CONSTANT, READ_BYTE, constantAt, push, h1, h2, hf, bind,
          Except.bind, pure, Except.pure]
      · simp [execute, READ_CONSTANT, READ_BYTE, constantAt, push, h1, h2, hf, bind,
          Except.bind, pure, Except.pure]
        omega

theorem execute_constant_long (P : Host F) (vm : VM F) :
    (∃ b1 b2 b3 v, vm.chunk.code[vm.ip]? = some b1 ∧ vm.chunk.code[vm.ip + 1]? = some b2
      ∧ vm.chunk.code[vm.ip + 2]? = some b3
      ∧ vm.chunk.constants[b1 ||| (b2 <<< 8) ||| (b3 <<< 16)]? = some v
      ∧ 0 < vm.free
      ∧ execute P OP_CONSTANT_LONG vm
          = .ok (.next { vm with ip := vm.ip + 3, stack := vm.stack ++ [v],
                                 free := vm.free - 1 }))
    ∨ execute P OP_CONSTANT_LONG vm = .error .fetchOutOfBounds
    ∨ execute P OP_CONSTANT_LONG vm = .error .constantOutOfBounds
    ∨ execute P OP_CONSTANT_LONG vm = .error .stackOverflow := by
  cases h1 : vm.chunk.code[vm.ip]? with
  | none => simp [execute, READ_LONG_CONSTANT, READ_BYTE, h1, bind, Except.bind]
  | some b1 =>
    cases h2 : vm.chunk.code[vm.ip + 1]? with
    | none => simp [execute, READ_LONG_CONSTANT, READ_BYTE, h1, h2, bind, Except.bind]
    | some b2 =>
      cases h3 : vm.chunk.code[vm.ip + 1 + 1]? with
      | none =>
        simp [execute, READ_LONG_CONSTANT, READ_BYTE, h1, h2, h3, bind, Except.bind]
      | some b3 =>
        cases h4 : vm.chunk.constants[b1 ||| (b2 <<< 8) ||| (b3 <<< 16)]? with
        | none =>
          simp [execute, READ_LONG_CONSTANT, READ_BYTE, constantAt, h1, h2, h3, h4, bind,
            Except.bind]
        | some v =>
          by_cases hf : vm.free = 0
          · simp [execute, READ_LONG_CONSTANT, READ_BYTE, constantAt, push, h1, h2, h3, h4, hf,
              bind, Except.bind, pure, Except.pure]
          · simp [execute, READ_LONG_CONSTANT, READ_BYTE, constantAt, push, h1, h2, h3, h4, hf,
              bind, Except.bind, pure, Except.pure]
            omega

/-- The literal pushes without operand bytes. -/
theorem execute_push_literal (P : Host F) (vm : VM F) (b : Nat)
    (hb : b ∈ [OP_NIL, OP_TRUE, OP_FALSE]) :
    (∃ v, 0 < vm.free
      ∧ execute P b vm = .ok (.next { vm with stack := vm.stack ++ [v], free := vm.free - 1 }))
    ∨ execute P b vm = .error .stackOverflow := by
  simp only [List.mem_cons, List.mem_singleton, List.not_mem_nil, or_false] at hb
  by_cases hf : vm.free = 0
  · rcases hb with h | h | h <;> subst h <;>
      simp [execute, push, hf, bind, Except.bind, pure, Except.pure]
  · have hpos : 0 < vm.free := by omega
    rcases hb with h | h | h <;> subst h
    · exact Or.inl ⟨NIL_VAL, hpos, by
        simp [execute, push, hf, bind, Except.bind, pure, Except.pure]⟩
    · exact Or.inl ⟨BOOL_VAL true, hpos, by
        simp [execute, push, hf, bind, Except.bind, pure, Except.pure]⟩
    · exact Or.inl ⟨BOOL_VAL false, hpos, by
        simp [execute, push, hf, bind, Except.bind, pure, Except.pure]⟩

/-- The handlers of `OP_EQUAL` and `OP_NOT`, which pop before they push and never signal
an error. -/
theorem execute_pop_push (P : Host F) (vm : VM F) (b : Nat) (hb : b ∈ [OP_EQUAL, OP_NOT]) :
    (∃ st fr, execute P b vm = .ok (.next { vm with stack := st, free := fr })
      ∧ st.length + fr = vm.stack.length + vm.free)
    ∨ execute P b vm = .error .stackUnderflow := by
  simp only [List.mem_cons, List.mem_singleton, List.not_mem_nil, or_false] at hb
  rcases hb with h | h <;> subst h
  · rcases stack_cases vm.stack with hs | ⟨x, hs⟩ | ⟨s, x, y, hs⟩
    · simp [execute, pop, hs, bind, Except.bind]
    · simp [execute, pop, hs, bind, Except.bind]
    · refine Or.inl ⟨s ++ [BOOL_VAL (valuesEqual P x y)], vm.free + 1, ?_, ?_⟩
      · simp [execute, pop, push, hs, bind, Except.bind, pure, Except.pure]
      · simp only [hs, List.length_append, List.length_cons, List.length_nil]; omega
  · rcases List.eq_nil_or_concat vm.stack with hs | ⟨s, x, hs⟩
    · simp [execute, pop, hs, bind, Except.bind]
    · rw [List.concat_eq_append] at hs
      refine Or.inl ⟨s ++ [BOOL_VAL (isFalsey x)], vm.free, ?_, ?_⟩
      · simp [execute, pop, push, hs, bind, Except.bind, pure, Except.pure]
      · simp only [hs, List.length_append, List.length_cons, List.length_nil]

/-- The handler of `OP_NEGATE`. -/
theorem execute_negate_post (P : Host F) (vm : VM F) : Post vm (execute P OP_NEGATE vm) := by
  rcases List.eq_nil_or_concat vm.stack with hs | ⟨s, x, hs⟩
  · simp [Post, execute, peek, hs, bind, Except.bind]
  · rw [List.concat_eq_append] at hs
    rcases x with _ | _ | n | _
    case number =>
      refine Or.inl ⟨s ++ [NUMBER_VAL (P.neg n)], vm.free, ?_, ?_⟩
      · simp [execute, peek, pop, push, hs, IS_NUMBER, AS_NUMBER, bind, Except.bind, pure,
          Except.pure]
      · simp only [hs, List.length_append, List.length_cons, List.length_nil]
    all_goals
      simp [Post, execute, peek, hs, IS_NUMBER, bind, Except.bind, pure, Except.pure]

/-- The handlers without operand bytes, return apart. -/
theorem execute_post (P : Host F) (b : Nat) (vm : VM F)
    (h0 : b ≠ OP_CONSTANT) (h1 : b ≠ OP_CONSTANT_LONG) (h42 : b ≠ OP_RETURN) :
    Post vm (execute P b vm)
    ∧ (b ∉ failing →
        (∃ st fr, execute P b vm = .ok (.next { vm with stack := st, free := fr })
          ∧ st.length + fr = vm.stack.length + vm.free)
        ∨ execute P b vm = .error .stackUnderflow ∨ execute P b vm = .error .stackOverflow) := by
  have hlit : b ∈ [OP_NIL, OP_TRUE, OP_FALSE] →
      Post vm (execute P b vm)
      ∧ (b ∉ failing →
        (∃ st fr, execute P b vm = .ok (.next { vm with stack := st, free := fr })
          ∧ st.length + fr = vm.stack.length + vm.free)
        ∨ execute P b vm = .error .stackUnderflow ∨ execute P b vm = .error .stackOverflow) := by
    intro hl
    rcases execute_push_literal P vm b hl with ⟨v, hpos, h⟩ | h
    · have hcap : (vm.stack ++ [v]).length + (vm.free - 1) = vm.stack.length + vm.free := by
        simp only [List.length_append, List.length_cons, List.length_nil]; omega
      exact ⟨Or.inl ⟨_, _, h, hcap⟩, fun _ => Or.inl ⟨_, _, h, hcap⟩⟩
    · exact ⟨Or.inr (Or.inr (Or.inr (Or.inl h))), fun _ => Or.inr (Or.inr h)⟩
  have hpp : b ∈ [OP_EQUAL, OP_NOT] →
      Post vm (execute P b vm)
      ∧ (b ∉ failing →
        (∃ st fr, execute P b vm = .ok (.next { vm with stack := st, free := fr })
          ∧ st.length + fr = vm.stack.length + vm.free)
        ∨ execute P b vm = .error .stackUnderflow ∨ execute P b vm = .error .stackOverflow) := by
    intro hl
    rcases execute_pop_push P vm b hl with ⟨st, fr, h, hcap⟩ | h
    · exact ⟨Or.inl ⟨st, fr, h, hcap⟩, fun _ => Or.inl ⟨st, fr, h, hcap⟩⟩
    · exact ⟨Or.inr (Or.inr (Or.inl h)), fun _ => Or.inr (Or.inl h)⟩
  by_cases hb : b ∈ implemented
  · simp only [implemented, List.mem_cons, List.mem_singleton, List.not_mem_nil, or_false] at hb
    obtain ⟨e1, e2, e3, e4, e5⟩ := execute_binary P vm
    rcases hb with h | h | h | h | h | h | h | h | h | h | h | h | h | h | h
    · exact absurd h h0
    · exact absurd h h1
    · exact hlit (by simp [h])
    · exact hlit (by simp [h])
    · exact hlit (by simp [h])
    · exact hpp (by simp [h])
    · subst h; rw [e4]; exact ⟨BINARY_OP_post _ _ _, fun hf => absurd (by simp [failing]) hf⟩
    · subst h; rw [e5]; exact ⟨BINARY_OP_post _ _ _, fun hf => absurd (by simp [failing]) hf⟩
    · subst h
      have : execute P OP_ADD vm = opAdd P vm := by simp [execute]
      rw [this]; exact ⟨opAdd_post _ _, fun hf => absurd (by simp [failing]) hf⟩
    · subst h; rw [e1]; exact ⟨BINARY_OP_post _ _ _, fun hf => absurd (by simp [failing]) hf⟩
    · subst h; rw [e2]; exact ⟨BINARY_OP_post _ _ _, fun hf => absurd (by simp [failing]) hf⟩
    · subst h; rw [e3]; exact ⟨BINARY_OP_post _ _ _, fun hf => absurd (by simp [failing]) hf⟩
    · exact hpp (by simp [h])
    · subst h
      exact ⟨execute_negate_post P vm, fun hf => absurd (by simp [failing]) hf⟩
    · exact absurd h h42
  · rw [execute_unimplemented P b vm hb]
    exact ⟨Or.inl ⟨vm.stack, vm.free, rfl, rfl⟩, fun _ => Or.inl ⟨vm.stack, vm.free, rfl, rfl⟩⟩

theorem execute_return (P : Host F) (vm : VM F) :
    (∃ st v, vm.stack = st ++ [v] ∧ execute P OP_RETURN vm
      = .ok (.done .INTERPRET_OK
          { vm with stack := st, free := vm.free + 1, out := vm.out ++ P.printValue v ++ "\n" }))
    ∨ execute P OP_RETURN vm = .error .stackUnderflow := by
  rcases List.eq_nil_or_concat vm.stack with hs | ⟨st, v, hs⟩
  · simp [execute, pop, hs, bind, Except.bind]
  · rw [List.concat_eq_append] at hs
    exact Or.inl ⟨st, v, hs, by
      simp [execute, pop, hs, bind, Except.bind, pure, Except.pure]⟩

theorem lt_length_of_getElem? {α : Type} (l : List α) (i : Nat) (a : α) (h : l[i]? = some a) :
    i < l.length := by
  by_contra hlt
  rw [List.getElem?_eq_none (Nat.le_of_not_lt hlt)] at h
  simp at h

/-- Every way one pass of the loop can end. -/
theorem step_cases (P : Host F) (vm : VM F) :
    (vm.chunk.code[vm.ip]? = none ∧ step P vm = .error .fetchOutOfBounds)
    ∨ ∃ b, vm.chunk.code[vm.ip]? = some b ∧ vm.ip < vm.chunk.code.length ∧
      ((∃ k st fr, (k = 1 ∨ k = 2 ∨ k = 4) ∧ vm.ip + k ≤ vm.chunk.code.length
          ∧ st.length + fr = vm.stack.length + vm.free
          ∧ step P vm = .ok (.next { vm with ip := vm.ip + k, stack := st, free := fr }))
      ∨ (b = OP_RETURN ∧ ∃ st v, vm.stack = st ++ [v] ∧ step P vm
          = .ok (.done .INTERPRET_OK
              { vm with ip := vm.ip + 1, stack := st, free := vm.free + 1,
                        out := vm.out ++ P.printValue v ++ "\n" }))
      ∨ (b ∈ failing ∧ ∃ msg, step P vm
          = .ok (.done .INTERPRET_RUNTIME_ERROR (runtimeError { vm with ip := vm.ip + 1 } msg)))
      ∨ step P vm = .error .fetchOutOfBounds ∨ step P vm = .error .constantOutOfBounds
      ∨ step P vm = .error .stackUnderflow ∨ step P vm = .error .stackOverflow
      ∨ step P vm = .error .intOverflow) := by
  cases hb : vm.chunk.code[vm.ip]? with
  | none => exact Or.inl ⟨rfl, by simp [step, READ_BYTE, hb, bind, Except.bind]⟩
  | some b =>
    have hlt := lt_length_of_getElem? _ _ _ hb
    refine Or.inr ⟨b, rfl, hlt, ?_⟩
    rw [step_eq_execute P vm b hb]
    by_cases h0 : b = OP_CONSTANT
    · subst h0
      rcases execute_constant P { vm with ip := vm.ip + 1 } with ⟨i, v, hi, _, hpos, h⟩ | h | h | h
      · have := lt_length_of_getElem? _ _ _ hi
        have hpos2 : 0 < vm.free := hpos
        exact Or.inl ⟨2, vm.stack ++ [v], vm.free - 1, by simp, this, by
          simp only [List.length_append, List.length_cons, List.length_nil]; omega, by rw [h]⟩
      · exact Or.inr (Or.inr (Or.inr (Or.inl h)))
      · exact Or.inr (Or.inr (Or.inr (Or.inr (Or.inl h))))
      · exact Or.inr (Or.inr (Or.inr (Or.inr (Or.inr (Or.inr (Or.inl h))))))
    by_cases h1 : b = OP_CONSTANT_LONG
    · subst h1
      rcases execute_constant_long P { vm with ip := vm.ip + 1 } with
        ⟨b1, b2, b3, v, _, _, hi, _, hpos, h⟩ | h | h | h
      · have := lt_length_of_getElem? _ _ _ hi
        have hpos2 : 0 < vm.free := hpos
        exact Or.inl ⟨4, vm.stack ++ [v], vm.free - 1, by simp, this, by
          simp only [List.length_append, List.length_cons, List.length_nil]; omega, by rw [h]⟩
      · exact Or.inr (Or.inr (Or.inr (Or.inl h)))
      · exact Or.inr (Or.inr (Or.inr (Or.inr (Or.inl h))))
      · exact Or.inr (Or.inr (Or.inr (Or.inr (Or.inr (Or.inr (Or.inl h))))))
    by_cases h42 : b = OP_RETURN
    · subst h42
      rcases execute_return P { vm with ip := vm.ip + 1 } with ⟨st, v, hs, h⟩ | h
      · exact Or.inr (Or.inl ⟨rfl, st, v, hs, h⟩)
      · exact Or.inr (Or.inr (Or.inr (Or.inr (Or.inr (Or.inl h)))))
    obtain ⟨hp, hnf⟩ := execute_post P b { vm with ip := vm.ip + 1 } h0 h1 h42
    by_cases hf : b ∈ failing
    · rcases hp with ⟨st, fr, h, hcap⟩ | ⟨msg, h⟩ | h | h | h
      · exact Or.inl ⟨1, st, fr, by simp, hlt, hcap, h⟩
      · exact Or.inr (Or.inr (Or.inl ⟨hf, msg, h⟩))
      · exact Or.inr (Or.inr (Or.inr (Or.inr (Or.inr (Or.inl h)))))
      · exact Or.inr (Or.inr (Or.inr (Or.inr (Or.inr (Or.inr (Or.inl h))))))
      · exact Or.inr (Or.inr (Or.inr (Or.inr (Or.inr (Or.inr (Or.inr h))))))
    · rcases hnf hf with ⟨st, fr, h, hcap⟩ | h | h
      · exact Or.inl ⟨1, st, fr, by simp, hlt, hcap, h⟩
      · exact Or.inr (Or.inr (Or.inr (Or.inr (Or.inr (Or.inl h)))))
      · exact Or.inr (Or.inr (Or.inr (Or.inr (Or.inr (Or.inr (Or.inl h))))))

/-! ## What one pass does to a stack that holds the operands -/

theorem split_last_two (l : List (Value F)) (h : 2 ≤ l.length) :
    ∃ s x y, l = s ++ [x, y] := by
  rcases stack_cases l with hs | ⟨x, hs⟩ | hs
  · subst hs; simp at h
  · subst hs; simp at h
  · exact hs

theorem split_last_one (l : List (Value F)) (h : 1 ≤ l.length) : ∃ s x, l = s ++ [x] := by
  rcases List.eq_nil_or_concat l with hs | ⟨s, x, hs⟩
  · subst hs; simp at h
  · exact ⟨s, x, by rw [hs, List.concat_eq_append]⟩

/-- The seven binary handlers on a stack that ends in `x, y`. -/
theorem step_two (P : Host F) (vm : VM F) (s : List (Value F)) (x y : Value F) (b : Nat)
    (hb : b ∈ [OP_EQUAL, OP_GREATER, OP_LESS, OP_ADD, OP_SUBTRACT, OP_MULTIPLY, OP_DIVIDE])
    (hfetch : vm.chunk.code[vm.ip]? = some b)
    (hstack : vm.stack = s ++ [x, y]) :
    (∃ v, step P vm
        = .ok (.next { vm with ip := vm.ip + 1, stack := s ++ [v], free := vm.free + 1 }))
    ∨ (b ∈ failing ∧ ∃ msg, step P vm
        = .ok (.done .INTERPRET_RUNTIME_ERROR (runtimeError { vm with ip := vm.ip + 1 } msg)))
    ∨ step P vm = .error .intOverflow := by
  simp only [List.mem_cons, List.mem_singleton, List.not_mem_nil, or_false] at hb
  have hbin : (b = OP_SUBTRACT ∨ b = OP_MULTIPLY ∨ b = OP_DIVIDE ∨ b = OP_GREATER ∨ b = OP_LESS) →
      (∃ v, step P vm
        = .ok (.next { vm with ip := vm.ip + 1, stack := s ++ [v], free := vm.free + 1 }))
      ∨ (b ∈ failing ∧ ∃ msg, step P vm
          = .ok (.done .INTERPRET_RUNTIME_ERROR (runtimeError { vm with ip := vm.ip + 1 } msg)))
      ∨ step P vm = .error .intOverflow := by
    intro hop
    have hf : b ∈ failing := by rcases hop with h | h | h | h | h <;> subst h <;> simp [failing]
    rcases x with _ | _ | a | _ <;> rcases y with _ | _ | c | _
    case number.number => exact Or.inl (step_binary_numbers P vm s a c b hop hfetch hstack)
    all_goals
      exact Or.inr (Or.inl ⟨hf, _,
        step_binary_error P vm s _ _ b hop hfetch hstack (by simp [IS_NUMBER])⟩)
  rcases hb with h | h | h | h | h | h | h
  · subst h
    exact Or.inl ⟨BOOL_VAL (valuesEqual P x y), by
      simp [step, READ_BYTE, hfetch, execute, pop, push, hstack, bind, Except.bind, pure,
        Except.pure]⟩
  · exact hbin (by simp [h])
  · exact hbin (by simp [h])
  · subst h
    by_cases hok : (IS_STRING x ∧ IS_STRING y) ∨ (IS_NUMBER x ∧ IS_NUMBER y)
        ∨ (IS_NUMBER x ∧ IS_STRING y) ∨ (IS_STRING x ∧ IS_NUMBER y)
    · rcases x with _ | _ | a | (⟨⟨s1⟩⟩ | _) <;> rcases y with _ | _ | c | (⟨⟨s2⟩⟩ | _) <;>
        simp [IS_STRING, IS_NUMBER] at hok
      · exact Or.inl ⟨_, step_add_numbers P vm s a c hfetch hstack⟩
      · rw [step_number_string P vm s a s2 hfetch hstack]
        rcases stringify_cases P a ⟨s2⟩ true with ⟨r, h⟩ | h <;> rw [h]
        · exact Or.inl ⟨_, rfl⟩
        · exact Or.inr (Or.inr rfl)
      · rw [step_string_number P vm s c s1 hfetch hstack]
        rcases stringify_cases P c ⟨s1⟩ false with ⟨r, h⟩ | h <;> rw [h]
        · exact Or.inl ⟨_, rfl⟩
        · exact Or.inr (Or.inr rfl)
      · by_cases h : s1.length + s2.length + 1 ≤ INT_MAX
        · exact Or.inl ⟨_, step_concat_ok P vm s s1 s2 hfetch hstack h⟩
        · exact Or.inr (Or.inr
            (step_concat_overflow P vm s s1 s2 hfetch hstack (Nat.not_le.mp h)))
    · exact Or.inr (Or.inl ⟨by simp [failing], _, step_add_error P vm s x y hfetch hstack hok⟩)
  · exact hbin (by simp [h])
  · exact hbin (by simp [h])
  · exact hbin (by simp [h])

/-- The handlers of `OP_NOT` and `OP_NEGATE` on a stack that ends in `x`. -/
theorem step_one (P : Host F) (vm : VM F) (s : List (Value F)) (x : Value F) (b : Nat)
    (hb : b ∈ [OP_NOT, OP_NEGATE])
    (hfetch : vm.chunk.code[vm.ip]? = some b)
    (hstack : vm.stack = s ++ [x]) :
    (∃ v, step P vm = .ok (.next { vm with ip := vm.ip + 1, stack := s ++ [v] }))
    ∨ (b ∈ failing ∧ ∃ msg, step P vm
        = .ok (.done .INTERPRET_RUNTIME_ERROR (runtimeError { vm with ip := vm.ip + 1 } msg))) := by
  simp only [List.mem_cons, List.mem_singleton, List.not_mem_nil, or_false] at hb
  rcases hb with h | h <;> subst h
  · exact Or.inl ⟨BOOL_VAL (isFalsey x), by
      simp [step, READ_BYTE, hfetch, execute, pop, push, hstack, bind, Except.bind, pure,
        Except.pure]⟩
  · rcases x with _ | _ | n | _
    case number => exact Or.inl ⟨_, step_negate_number P vm s n hfetch hstack⟩
    all_goals
      exact Or.inr ⟨by simp [failing], _, step_negate_error P vm s _ hfetch hstack rfl⟩

/-- The literal pushes on any stack. -/
theorem step_literal (P : Host F) (vm : VM F) (b : Nat)
    (hb : b ∈ [OP_CONSTANT, OP_CONSTANT_LONG, OP_NIL, OP_TRUE, OP_FALSE])
    (hfetch : vm.chunk.code[vm.ip]? = some b) :
    (∃ k v, 0 < vm.free ∧ step P vm
      = .ok (.next { vm with ip := vm.ip + k, stack := vm.stack ++ [v], free := vm.free - 1 }))
    ∨ step P vm = .error .fetchOutOfBounds ∨ step P vm = .error .constantOutOfBounds
    ∨ step P vm = .error .stackOverflow := by
  simp only [List.mem_cons, List.mem_singleton, List.not_mem_nil, or_false] at hb
  rw [step_eq_execute P vm b hfetch]
  have hlit : b ∈ [OP_NIL, OP_TRUE, OP_FALSE] →
      (∃ k v, 0 < vm.free ∧ execute P b { vm with ip := vm.ip + 1 }
        = .ok (.next { vm with ip := vm.ip + k, stack := vm.stack ++ [v], free := vm.free - 1 }))
      ∨ execute P b { vm with ip := vm.ip + 1 } = .error .fetchOutOfBounds
      ∨ execute P b { vm with ip := vm.ip + 1 } = .error .constantOutOfBounds
      ∨ execute P b { vm with ip := vm.ip + 1 } = .error .stackOverflow := by
    intro hl
    rcases execute_push_literal P { vm with ip := vm.ip + 1 } b hl with ⟨v, hpos, h⟩ | h
    · exact Or.inl ⟨1, v, hpos, h⟩
    · exact Or.inr (Or.inr (Or.inr h))
  rcases hb with h | h | h | h | h
  · subst h
    rcases execute_constant P { vm with ip := vm.ip + 1 } with ⟨i, v, _, _, hpos, h⟩ | h | h | h
    · exact Or.inl ⟨2, v, hpos, by rw [h]⟩
    · exact Or.inr (Or.inl h)
    · exact Or.inr (Or.inr (Or.inl h))
    · exact Or.inr (Or.inr (Or.inr h))
  · subst h
    rcases execute_constant_long P { vm with ip := vm.ip + 1 } with
      ⟨b1, b2, b3, v, _, _, _, _, hpos, h⟩ | h | h | h
    · exact Or.inl ⟨4, v, hpos, by rw [h]⟩
    · exact Or.inr (Or.inl h)
    · exact Or.inr (Or.inr (Or.inl h))
    · exact Or.inr (Or.inr (Or.inr h))
  · exact hlit (by simp [h])
  · exact hlit (by simp [h])
  · exact hlit (by simp [h])

/-! ## The loop, for an arbitrary chunk -/

theorem step_next_inv (P : Host F) (vm vm1 : VM F) (h : step P vm = .ok (.next vm1)) :
    vm1.chunk = vm.chunk ∧ vm1.out = vm.out ∧ vm1.err = vm.err
    ∧ vm.ip < vm.chunk.code.length ∧ vm1.ip ≤ vm.chunk.code.length
    ∧ (vm1.ip = vm.ip + 1 ∨ vm1.ip = vm.ip + 2 ∨ vm1.ip = vm.ip + 4) := by
  rcases step_cases P vm with ⟨_, h1⟩ | ⟨b, _, hlt, h1⟩
  · rw [h1] at h; simp at h
  · rcases h1 with ⟨k, st, fr, hk, hle, _, h1⟩ | ⟨_, st, v, _, h1⟩ | ⟨_, msg, h1⟩
        | h1 | h1 | h1 | h1 | h1 <;>
      rw [h1] at h <;> simp at h
    subst h
    refine ⟨rfl, rfl, rfl, hlt, hle, ?_⟩
    rcases hk with hk | hk | hk <;> subst hk <;> simp

theorem step_done_inv (P : Host F) (vm vm1 : VM F) (r : InterpretResult)
    (h : step P vm = .ok (.done r vm1)) :
    vm.ip < vm.chunk.code.length
    ∧ ((r = .INTERPRET_OK ∧ vm.chunk.code[vm.ip]? = some OP_RETURN
        ∧ ∃ st v, vm.stack = st ++ [v]
          ∧ vm1 = { vm with ip := vm.ip + 1, stack := st, free := vm.free + 1,
                            out := vm.out ++ P.printValue v ++ "\n" })
      ∨ (r = .INTERPRET_RUNTIME_ERROR ∧ ∃ b msg, vm.chunk.code[vm.ip]? = some b ∧ b ∈ failing
        ∧ vm1 = runtimeError { vm with ip := vm.ip + 1 } msg)) := by
  rcases step_cases P vm with ⟨_, h1⟩ | ⟨b, hb, hlt, h1⟩
  · rw [h1] at h; simp at h
  · refine ⟨hlt, ?_⟩
    rcases h1 with ⟨k, st, fr, hk, hle, _, h1⟩ | ⟨hret, st, v, hs, h1⟩ | ⟨hf, msg, h1⟩
        | h1 | h1 | h1 | h1 | h1 <;>
      rw [h1] at h <;> simp at h
    · obtain ⟨hr, hvm⟩ := h
      subst hret
      exact Or.inl ⟨hr.symm, hb, st, v, hs, hvm.symm⟩
    · obtain ⟨hr, hvm⟩ := h
      exact Or.inr ⟨hr.symm, b, msg, hb, hf, hvm.symm⟩

theorem step_error_inv (P : Host F) (vm : VM F) (f : Fault) (h : step P vm = .error f) :
    f = .fetchOutOfBounds ∨ f = .constantOutOfBounds ∨ f = .stackUnderflow
    ∨ f = .stackOverflow ∨ f = .intOverflow := by
  rcases step_cases P vm with ⟨_, h1⟩ | ⟨b, _, _, h1⟩
  · rw [h1] at h; simp at h; exact Or.inl h.symm
  · rcases h1 with ⟨k, st, fr, _, _, _, h1⟩ | ⟨_, st, v, _, h1⟩ | ⟨_, msg, h1⟩
        | h1 | h1 | h1 | h1 | h1 <;>
      rw [h1] at h <;> simp at h <;> simp [← h]

/-- The array of the stack keeps its size: every pass that ends without a fault leaves
`stack.length + free` as it was. -/
theorem step_capacity (P : Host F) (vm : VM F) (c : Control F) (h : step P vm = .ok c) :
    c.vm.capacity = vm.capacity := by
  rcases step_cases P vm with ⟨_, h1⟩ | ⟨b, _, _, h1⟩
  · rw [h1] at h; simp at h
  · rcases h1 with ⟨k, st, fr, _, _, hcap, h1⟩ | ⟨_, st, v, hs, h1⟩ | ⟨_, msg, h1⟩
        | h1 | h1 | h1 | h1 | h1 <;>
      rw [h1] at h <;> simp at h <;> subst h
    · exact hcap
    · simp only [Control.vm, VM.capacity, hs, List.length_append, List.length_cons,
        List.length_nil]
      omega
    · simp only [Control.vm, VM.capacity, runtimeError, resetStack, List.length_nil]
      omega

theorem runLoop_succ (P : Host F) (fuel : Nat) (vm : VM F) :
    runLoop P (fuel + 1) vm =
      match step P vm with
      | .error f => some (.error f)
      | .ok (.done result vm1) => some (.ok (result, vm1))
      | .ok (.next vm1) => runLoop P fuel vm1 := rfl

/-- A run that returns does so from a pass on the same chunk. -/
theorem runLoop_done_inv (P : Host F) (fuel : Nat) (vm vm1 : VM F) (r : InterpretResult)
    (h : runLoop P fuel vm = some (.ok (r, vm1))) :
    ∃ vmf, vmf.chunk = vm.chunk ∧ vm.ip ≤ vmf.ip ∧ step P vmf = .ok (.done r vm1) := by
  induction fuel generalizing vm with
  | zero => simp [runLoop] at h
  | succ fuel ih =>
    rw [runLoop_succ] at h
    cases hs : step P vm with
    | error f => rw [hs] at h; simp at h
    | ok c =>
      cases c with
      | done r2 vm2 =>
        rw [hs] at h
        simp at h
        obtain ⟨h1, h2⟩ := h
        subst h1 h2
        exact ⟨vm, rfl, Nat.le_refl _, hs⟩
      | next vm2 =>
        rw [hs] at h
        obtain ⟨hc, _, _, _, _, hip⟩ := step_next_inv P vm vm2 hs
        obtain ⟨vmf, h1, h2, h3⟩ := ih vm2 h
        exact ⟨vmf, h1.trans hc, by omega, h3⟩

/-- A fault of a run is a fault of one of its passes. -/
theorem runLoop_error_inv (P : Host F) (fuel : Nat) (vm : VM F) (f : Fault)
    (h : runLoop P fuel vm = some (.error f)) :
    ∃ vmf, vmf.chunk = vm.chunk ∧ step P vmf = .error f := by
  induction fuel generalizing vm with
  | zero => simp [runLoop] at h
  | succ fuel ih =>
    rw [runLoop_succ] at h
    cases hs : step P vm with
    | error f2 =>
      rw [hs] at h
      simp at h
      subst h
      exact ⟨vm, rfl, hs⟩
    | ok c =>
      cases c with
      | done r2 vm2 => rw [hs] at h; simp at h
      | next vm2 =>
        rw [hs] at h
        obtain ⟨hc, _⟩ := step_next_inv P vm vm2 hs
        obtain ⟨vmf, h1, h2⟩ := ih vm2 h
        exact ⟨vmf, h1.trans hc, h2⟩

/-- The loop halts once it is allowed more passes than code bytes remain. -/
theorem runLoop_total (P : Host F) (fuel : Nat) (vm : VM F)
    (hfuel : vm.chunk.code.length - vm.ip < fuel) : ∃ r, runLoop P fuel vm = some r := by
  induction fuel generalizing vm with
  | zero => omega
  | succ fuel ih =>
    rw [runLoop_succ]
    cases hs : step P vm with
    | error f => exact ⟨_, rfl⟩
    | ok c =>
      cases c with
      | done r2 vm2 => exact ⟨_, rfl⟩
      | next vm2 =>
        obtain ⟨hc, _, _, hlt, _, hip⟩ := step_next_inv P vm vm2 hs
        exact ih vm2 (by rw [hc]; omega)

/-- More passes do not change the result of a run that has halted. -/
theorem runLoop_mono (P : Host F) (fuel : Nat) (vm : VM F)
    (r : Except Fault (InterpretResult × VM F)) (h : runLoop P fuel vm = some r) :
    runLoop P (fuel + 1) vm = some r := by
  induction fuel generalizing vm with
  | zero => simp [runLoop] at h
  | succ fuel ih =>
    rw [runLoop_succ] at h ⊢
    cases hs : step P vm with
    | error f => rw [hs] at h; exact h
    | ok c =>
      cases c with
      | done r2 vm2 => rw [hs] at h; exact h
      | next vm2 => rw [hs] at h; exact ih vm2 h

/-- A loop that has not halted after as many passes as code bytes remained has run off
the end of the code. -/
theorem runLoop_off_end (P : Host F) (fuel : Nat) (vm : VM F)
    (h : runLoop P fuel vm = none) (hfuel : vm.chunk.code.length - vm.ip ≤ fuel) :
    runLoop P (fuel + 1) vm = some (.error .fetchOutOfBounds) := by
  induction fuel generalizing vm with
  | zero =>
    have hnone : vm.chunk.code[vm.ip]? = none := List.getElem?_eq_none (by omega)
    simp [runLoop, step, READ_BYTE, hnone, bind, Except.bind]
  | succ fuel ih =>
    rw [runLoop_succ] at h
    rw [runLoop_succ]
    cases hs : step P vm with
    | error f => rw [hs] at h; simp at h
    | ok c =>
      cases c with
      | done r2 vm2 => rw [hs] at h; simp at h
      | next vm2 =>
        rw [hs] at h
        obtain ⟨hc, _, _, hlt, _, hip⟩ := step_next_inv P vm vm2 hs
        exact ih vm2 h (by rw [hc]; omega)

theorem long_index (i : Nat) (hi : i < 2 ^ 24) :
    i % 256 ||| ((i / 256 % 256) <<< 8) ||| ((i / 65536 % 256) <<< 16) = i := by
  have h1 : i % 256 < 2 ^ 8 := by omega
  have h2 : 2 ^ 8 * (i / 256 % 256) + i % 256 < 2 ^ 16 := by omega
  rw [Nat.shiftLeft_eq, Nat.shiftLeft_eq, Nat.or_comm (i % 256), Nat.mul_comm _ (2 ^ 8),
    ← Nat.mul_add_lt_is_or h1, Nat.or_comm, Nat.mul_comm _ (2 ^ 16), ← Nat.mul_add_lt_is_or h2]
  omega

theorem pool_constant (code : List Nat) (stack : List (Value Int)) (k : Nat) (hk : k < 300) :
    (poolState code stack).chunk.constants[k]? = some (NUMBER_VAL (Int.ofNat k)) := by
  show ((List.range 300).map (fun (k : Nat) => (NUMBER_VAL (Int.ofNat k) : Value Int)))[k]? = _
  rw [List.getElem?_map, List.getElem?_range hk]
  rfl

/-- An implemented opcode on a stack `s ++ operands` that holds its operands: the pass goes
on with `s` and one pushed value, or returns with `s`, or signals a runtime error, or
faults on its operand bytes, on a full stack or on an `int` overflow; it does not
underflow. -/
theorem step_shape (P : Host F) (vm : VM F) (b : Nat) (hb : b ∈ implemented)
    (hfetch : vm.chunk.code[vm.ip]? = some b) (hd : arity b ≤ vm.stack.length) :
    ∃ s operands, vm.stack = s ++ operands ∧ operands.length = arity b ∧
      ((b ≠ OP_RETURN ∧ ∃ k v fr, (k = 1 ∨ k = 2 ∨ k = 4)
          ∧ step P vm = .ok (.next { vm with ip := vm.ip + k, stack := s ++ [v], free := fr }))
      ∨ (b = OP_RETURN ∧ ∃ o, step P vm
          = .ok (.done .INTERPRET_OK { vm with ip := vm.ip + 1, stack := s, free := vm.free + 1,
                                               out := o }))
      ∨ (b ∈ failing ∧ ∃ msg, step P vm
          = .ok (.done .INTERPRET_RUNTIME_ERROR (runtimeError { vm with ip := vm.ip + 1 } msg)))
      ∨ step P vm = .error .fetchOutOfBounds ∨ step P vm = .error .constantOutOfBounds
      ∨ step P vm = .error .stackOverflow ∨ step P vm = .error .intOverflow) := by
  have hlit : b ∈ [OP_CONSTANT, OP_CONSTANT_LONG, OP_NIL, OP_TRUE, OP_FALSE] →
      ∃ s operands, vm.stack = s ++ operands ∧ operands.length = arity b ∧
      ((b ≠ OP_RETURN ∧ ∃ k v fr, (k = 1 ∨ k = 2 ∨ k = 4)
          ∧ step P vm = .ok (.next { vm with ip := vm.ip + k, stack := s ++ [v], free := fr }))
      ∨ (b = OP_RETURN ∧ ∃ o, step P vm
          = .ok (.done .INTERPRET_OK { vm with ip := vm.ip + 1, stack := s, free := vm.free + 1,
                                               out := o }))
      ∨ (b ∈ failing ∧ ∃ msg, step P vm
          = .ok (.done .INTERPRET_RUNTIME_ERROR (runtimeError { vm with ip := vm.ip + 1 } msg)))
      ∨ step P vm = .error .fetchOutOfBounds ∨ step P vm = .error .constantOutOfBounds
      ∨ step P vm = .error .stackOverflow ∨ step P vm = .error .intOverflow) := by
    intro hl
    have ha : arity b = 0 := by simp [arity, hl]
    have hne : b ≠ OP_RETURN := by
      rintro rfl
      simp at hl
    refine ⟨vm.stack, [], by simp, by simp [ha], ?_⟩
    have hk : ∀ k v,
        step P vm
          = .ok (.next { vm with ip := vm.ip + k, stack := vm.stack ++ [v],
                                 free := vm.free - 1 }) →
        k = 1 ∨ k = 2 ∨ k = 4 := by
      intro k v h
      obtain ⟨_, _, _, _, _, hip⟩ := step_next_inv P vm _ h
      simpa using hip
    rcases step_literal P vm b hl hfetch with ⟨k, v, _, h⟩ | h | h | h
    · exact Or.inl ⟨hne, k, v, _, hk k v h, h⟩
    · exact Or.inr (Or.inr (Or.inr (Or.inl h)))
    · exact Or.inr (Or.inr (Or.inr (Or.inr (Or.inl h))))
    · exact Or.inr (Or.inr (Or.inr (Or.inr (Or.inr (Or.inl h)))))
  have hun : b ∈ [OP_NOT, OP_NEGATE] →
      ∃ s operands, vm.stack = s ++ operands ∧ operands.length = arity b ∧
      ((b ≠ OP_RETURN ∧ ∃ k v fr, (k = 1 ∨ k = 2 ∨ k = 4)
          ∧ step P vm = .ok (.next { vm with ip := vm.ip + k, stack := s ++ [v], free := fr }))
      ∨ (b = OP_RETURN ∧ ∃ o, step P vm
          = .ok (.done .INTERPRET_OK { vm with ip := vm.ip + 1, stack := s, free := vm.free + 1,
                                               out := o }))
      ∨ (b ∈ failing ∧ ∃ msg, step P vm
          = .ok (.done .INTERPRET_RUNTIME_ERROR (runtimeError { vm with ip := vm.ip + 1 } msg)))
      ∨ step P vm = .error .fetchOutOfBounds ∨ step P vm = .error .constantOutOfBounds
      ∨ step P vm = .error .stackOverflow ∨ step P vm = .error .intOverflow) := by
    intro hu
    have ha : arity b = 1 := by
      simp only [List.mem_cons, List.mem_singleton, List.not_mem_nil, or_false] at hu
      rcases hu with h | h <;> subst h <;> simp [arity]
    have hne : b ≠ OP_RETURN := by
      rintro rfl
      simp at hu
    obtain ⟨s, x, hs⟩ := split_last_one vm.stack (by omega)
    refine ⟨s, [x], hs, by simp [ha], ?_⟩
    rcases step_one P vm s x b hu hfetch hs with ⟨v, h⟩ | ⟨hf, msg, h⟩
    · exact Or.inl ⟨hne, 1, v, vm.free, by simp, h⟩
    · exact Or.inr (Or.inr (Or.inl ⟨hf, msg, h⟩))
  have hbin : b ∈ [OP_EQUAL, OP_GREATER, OP_LESS, OP_ADD, OP_SUBTRACT, OP_MULTIPLY, OP_DIVIDE] →
      ∃ s operands, vm.stack = s ++ operands ∧ operands.length = arity b ∧
      ((b ≠ OP_RETURN ∧ ∃ k v fr, (k = 1 ∨ k = 2 ∨ k = 4)
          ∧ step P vm = .ok (.next { vm with ip := vm.ip + k, stack := s ++ [v], free := fr }))
      ∨ (b = OP_RETURN ∧ ∃ o, step P vm
          = .ok (.done .INTERPRET_OK { vm with ip := vm.ip + 1, stack := s, free := vm.free + 1,
                                               out := o }))
      ∨ (b ∈ failing ∧ ∃ msg, step P vm
          = .ok (.done .INTERPRET_RUNTIME_ERROR (runtimeError { vm with ip := vm.ip + 1 } msg)))
      ∨ step P vm = .error .fetchOutOfBounds ∨ step P vm = .error .constantOutOfBounds
      ∨ step P vm = .error .stackOverflow ∨ step P vm = .error .intOverflow) := by
    intro hbi
    have ha : arity b = 2 := by
      simp only [List.mem_cons, List.mem_singleton, List.not_mem_nil, or_false] at hbi
      rcases hbi with h | h | h | h | h | h | h <;> subst h <;> simp [arity]
    have hne : b ≠ OP_RETURN := by
      rintro rfl
      simp at hbi
    obtain ⟨s, x, y, hs⟩ := split_last_two vm.stack (by omega)
    refine ⟨s, [x, y], hs, by simp [ha], ?_⟩
    rcases step_two P vm s x y b hbi hfetch hs with ⟨v, h⟩ | ⟨hf, msg, h⟩ | h
    · exact Or.inl ⟨hne, 1, v, vm.free + 1, by simp, h⟩
    · exact Or.inr (Or.inr (Or.inl ⟨hf, msg, h⟩))
    · exact Or.inr (Or.inr (Or.inr (Or.inr (Or.inr (Or.inr h)))))
  simp only [implemented, List.mem_cons, List.mem_singleton, List.not_mem_nil, or_false] at hb
  rcases hb with h | h | h | h | h | h | h | h | h | h | h | h | h | h | h
  · exact hlit (by simp [h])
  · exact hlit (by simp [h])
  · exact hlit (by simp [h])
  · exact hlit (by simp [h])
  · exact hlit (by simp [h])
  · exact hbin (by simp [h])
  · exact hbin (by simp [h])
  · exact hbin (by simp [h])
  · exact hbin (by simp [h])
  · exact hbin (by simp [h])
  · exact hbin (by simp [h])
  · exact hbin (by simp [h])
  · exact hun (by simp [h])
  · exact hun (by simp [h])
  · subst h
    have ha : arity OP_RETURN = 1 := by simp [arity]
    obtain ⟨s, x, hs⟩ := split_last_one vm.stack (by omega)
    exact ⟨s, [x], hs, by simp [ha],
      Or.inr (Or.inl ⟨rfl, _, step_return P vm s x hfetch hs⟩)⟩

theorem depthAfter_eq (b d : Nat) (hb : b ∈ implemented) (hd : arity b ≤ d) :
    (b ≠ OP_RETURN → depthAfter b d + arity b = d + 1)
    ∧ (b = OP_RETURN → depthAfter b d + arity b = d) := by
  simp only [implemented, List.mem_cons, List.mem_singleton, List.not_mem_nil, or_false] at hb
  rcases hb with h | h | h | h | h | h | h | h | h | h | h | h | h | h | h <;> subst h <;>
    simp [arity, depthAfter] at hd ⊢ <;> omega

/-! ## The claims -/

/-- C1: for all numbers a, b and every stack prefix s, OP_ADD on s ++ [Number a, Number b]
signals no error and leaves s ++ [Number (a + b)] (the two operand slots are freed and one
is taken again); and the chunk "CONSTANT 1, CONSTANT 2, ADD, RETURN", run from an empty
stack in an array of any size that holds its two constants, prints the value of the sum of
its two constants followed by a newline and returns INTERPRET_OK. -/
theorem add_numbers (P : Host F) (vm : VM F) (s : List (Value F)) (a b : F)
    (hfetch : vm.chunk.code[vm.ip]? = some OP_ADD)
    (hstack : vm.stack = s ++ [NUMBER_VAL a, NUMBER_VAL b]) :
    step P vm
      = .ok (.next { vm with ip := vm.ip + 1, stack := s ++ [NUMBER_VAL (P.add a b)],
                             free := vm.free + 1 })
    ∧ ∀ (c1 c2 : F) (lines : List LineStart) (out err : String) (room : Nat),
        run P { chunk := ⟨[OP_CONSTANT, 0, OP_CONSTANT, 1, OP_ADD, OP_RETURN],
                          [NUMBER_VAL c1, NUMBER_VAL c2], lines⟩,
                ip := 0, stack := [], free := room + 2, out := out, err := err }
          = some (.ok (.INTERPRET_OK,
              { chunk := ⟨[OP_CONSTANT, 0, OP_CONSTANT, 1, OP_ADD, OP_RETURN],
                          [NUMBER_VAL c1, NUMBER_VAL c2], lines⟩,
                ip := 6, stack := [], free := room + 2,
                out := out ++ P.printValue (NUMBER_VAL (P.add c1 c2)) ++ "\n",
                err := err })) := by
  refine ⟨step_add_numbers P vm s a b hfetch hstack, ?_⟩
  intro c1 c2 lines out err room
  simp [run, runLoop, step, READ_BYTE, READ_CONSTANT, constantAt, execute, opAdd, peekAnd, peek,
    pop, push, IS_STRING, IS_NUMBER, AS_NUMBER, bind, Except.bind, pure, Except.pure]

/-- Witness of C1: on the integer host, 1 + 2 leaves 3, and the scenario chunk prints
"3" and a newline. -/
theorem add_numbers_witness :
    (opState OP_ADD [NUMBER_VAL 1, NUMBER_VAL 2]).chunk.code[
        (opState OP_ADD [NUMBER_VAL 1, NUMBER_VAL 2]).ip]? = some OP_ADD
    ∧ (opState OP_ADD [NUMBER_VAL 1, NUMBER_VAL 2]).stack = [] ++ [NUMBER_VAL 1, NUMBER_VAL 2]
    ∧ step intHost (opState OP_ADD [NUMBER_VAL 1, NUMBER_VAL 2])
        = .ok (.next { opState OP_ADD [NUMBER_VAL 3] with ip := 1 })
    ∧ run intHost { chunk := ⟨[OP_CONSTANT, 0, OP_CONSTANT, 1, OP_ADD, OP_RETURN],
                              [NUMBER_VAL 1, NUMBER_VAL 2], []⟩,
                    ip := 0, stack := [], free := 256, out := "", err := "" }
        = some (.ok (.INTERPRET_OK,
            { chunk := ⟨[OP_CONSTANT, 0, OP_CONSTANT, 1, OP_ADD, OP_RETURN],
                        [NUMBER_VAL 1, NUMBER_VAL 2], []⟩,
              ip := 6, stack := [], free := 256, out := "3\n", err := "" })) :=
  ⟨by decide, by decide,
    (add_numbers intHost (opState OP_ADD [NUMBER_VAL 1, NUMBER_VAL 2]) [] 1 2
      (by decide) (by decide)).1,
    (add_numbers intHost (opState OP_ADD [NUMBER_VAL 1, NUMBER_VAL 2]) [] 1 2
      (by decide) (by decide)).2 1 2 [] "" "" 254⟩

/-- C2 (amended): for all strings s1, s2 and every stack prefix s, OP_ADD on
s ++ [String s1, String s2] leaves s ++ [String r] where r is s1 followed by s2 with no
separator, of length length(s1) + length(s2), provided length(s1) + length(s2) + 1 (the
size of the buffer, terminator included) fits in an int. -/
theorem concat_strings (P : Host F) (vm : VM F) (s : List (Value F)) (s1 s2 : String)
    (hfetch : vm.chunk.code[vm.ip]? = some OP_ADD)
    (hstack : vm.stack = s ++ [OBJ_VAL ⟨s1⟩, OBJ_VAL ⟨s2⟩])
    (hfit : s1.length + s2.length + 1 ≤ INT_MAX) :
    step P vm = .ok (.next { vm with ip := vm.ip + 1, stack := s ++ [OBJ_VAL ⟨s1 ++ s2⟩],
                                     free := vm.free + 1 })
    ∧ (s1 ++ s2).data = s1.data ++ s2.data
    ∧ (ObjString.mk (s1 ++ s2)).length = s1.length + s2.length :=
  ⟨step_concat_ok P vm s s1 s2 hfetch hstack hfit, String.data_append s1 s2,
    ObjString.length_append s1 s2⟩

/-- Witness of C2: "a" then "b" leaves "ab". -/
theorem concat_strings_witness :
    (opState OP_ADD [OBJ_VAL ⟨"a"⟩, OBJ_VAL ⟨"b"⟩]).chunk.code[
        (opState OP_ADD [OBJ_VAL ⟨"a"⟩, OBJ_VAL ⟨"b"⟩]).ip]? = some OP_ADD
    ∧ "a".length + "b".length + 1 ≤ INT_MAX
    ∧ step intHost (opState OP_ADD [OBJ_VAL ⟨"a"⟩, OBJ_VAL ⟨"b"⟩])
        = .ok (.next { opState OP_ADD [OBJ_VAL ⟨"ab"⟩] with ip := 1 }) :=
  ⟨by decide, by decide,
    (concat_strings intHost (opState OP_ADD [OBJ_VAL ⟨"a"⟩, OBJ_VAL ⟨"b"⟩]) [] "a" "b"
      (by decide) (by decide) (by decide)).1⟩

/-- Counterexample to C2 as stated: with s1 of INT_MAX - 1 characters and s2 = "a" the sum
of the lengths is INT_MAX and fits in an int, yet OP_ADD leaves no string: the buffer size
length + 1 overflows. -/
theorem concat_strings_counterexample :
    longText.length + "a".length ≤ INT_MAX
    ∧ step intHost (opState OP_ADD [OBJ_VAL ⟨longText⟩, OBJ_VAL ⟨"a"⟩]) = .error .intOverflow := by
  constructor
  · rw [longText_length]; decide
  · refine step_concat_overflow intHost _ [] longText "a" rfl rfl ?_
    rw [longText_length]; decide

/-- C3 (amended): for every number n and string t, with render(n) the text snprintf leaves
in the 50-char buffer: OP_ADD on [.., Number n, String t] leaves the string render(n) ++ t,
and OP_ADD on [.., String t, Number n] leaves t ++ render(n); in both cases the length is
length(render(n)) + length(t); provided length(render(n)) + length(t) + 1 fits in an
int. -/
theorem add_mixed (P : Host F) (vm : VM F) (s : List (Value F)) (n : F) (t : String)
    (hfetch : vm.chunk.code[vm.ip]? = some OP_ADD)
    (hfit : (snprintfG P 50 n).length + t.length + 1 ≤ INT_MAX) :
    (vm.stack = s ++ [NUMBER_VAL n, OBJ_VAL ⟨t⟩] →
      step P vm = .ok (.next { vm with ip := vm.ip + 1,
                                       stack := s ++ [OBJ_VAL ⟨snprintfG P 50 n ++ t⟩],
                                       free := vm.free + 1 }))
    ∧ (vm.stack = s ++ [OBJ_VAL ⟨t⟩, NUMBER_VAL n] →
      step P vm = .ok (.next { vm with ip := vm.ip + 1,
                                       stack := s ++ [OBJ_VAL ⟨t ++ snprintfG P 50 n⟩],
                                       free := vm.free + 1 }))
    ∧ (ObjString.mk (snprintfG P 50 n ++ t)).length = (snprintfG P 50 n).length + t.length
    ∧ (ObjString.mk (t ++ snprintfG P 50 n)).length = (snprintfG P 50 n).length + t.length := by
  refine ⟨?_, ?_, ObjString.length_append _ _, ?_⟩
  · intro hstack
    rw [step_number_string P vm s n t hfetch hstack, stringify_ok P n t true hfit]
    rfl
  · intro hstack
    rw [step_string_number P vm s n t hfetch hstack, stringify_ok P n t false hfit]
    rfl
  · rw [ObjString.length_append, Nat.add_comm]

/-- Witness of C3: 7 then "up" leaves "7up"; "no" then 7 leaves "no7". -/
theorem add_mixed_witness :
    (snprintfG intHost 50 7).length + "up".length + 1 ≤ INT_MAX
    ∧ step intHost (opState OP_ADD [NUMBER_VAL 7, OBJ_VAL ⟨"up"⟩])
        = .ok (.next { opState OP_ADD [OBJ_VAL ⟨"7up"⟩] with ip := 1 })
    ∧ step intHost (opState OP_ADD [OBJ_VAL ⟨"no"⟩, NUMBER_VAL 7])
        = .ok (.next { opState OP_ADD [OBJ_VAL ⟨"no7"⟩] with ip := 1 }) :=
  ⟨by decide,
    (add_mixed intHost (opState OP_ADD [NUMBER_VAL 7, OBJ_VAL ⟨"up"⟩]) [] 7 "up"
      (by decide) (by decide)).1 (by decide),
    (add_mixed intHost (opState OP_ADD [OBJ_VAL ⟨"no"⟩, NUMBER_VAL 7]) [] 7 "no"
      (by decide) (by decide)).2.1 (by decide)⟩

/-- Counterexample to C3 as stated: for the number 1 (rendered "1") pushed first and a
string of INT_MAX - 1 characters on top, OP_ADD leaves no string of length
length(render(n)) + length(t): the buffer size totalLength + 1 overflows an int. -/
theorem add_mixed_counterexample :
    snprintfG intHost 50 1 = "1"
    ∧ step intHost (opState OP_ADD [NUMBER_VAL 1, OBJ_VAL ⟨longText⟩]) = .error .intOverflow := by
  constructor
  · decide
  · have hover : INT_MAX < (snprintfG intHost 50 1).length + longText.length + 1 := by
      rw [longText_length]; decide
    rw [step_number_string intHost (opState OP_ADD [NUMBER_VAL 1, OBJ_VAL ⟨longText⟩]) [] 1
      longText rfl rfl, stringify_overflow intHost 1 longText true hover]
    rfl

/-- C4: with x second-from-top and y on top, OP_ADD signals a runtime error if and only if
(x, y) is not one of (string, string), (number, number), (number, string),
(string, number).  When it does, stderr receives exactly the diagnostic "Operands must be
two numbers, two strings, or a combination of strings and numbers.", a newline and the
line of the opcode, run returns INTERPRET_RUNTIME_ERROR, and the stack is empty. -/
theorem add_error_iff (P : Host F) (vm : VM F) (s : List (Value F)) (x y : Value F)
    (hfetch : vm.chunk.code[vm.ip]? = some OP_ADD)
    (hstack : vm.stack = s ++ [x, y]) :
    ((∃ vm1, step P vm = .ok (.done .INTERPRET_RUNTIME_ERROR vm1)) ↔
      ¬ ((IS_STRING x ∧ IS_STRING y) ∨ (IS_NUMBER x ∧ IS_NUMBER y)
        ∨ (IS_NUMBER x ∧ IS_STRING y) ∨ (IS_STRING x ∧ IS_NUMBER y)))
    ∧ (¬ ((IS_STRING x ∧ IS_STRING y) ∨ (IS_NUMBER x ∧ IS_NUMBER y)
        ∨ (IS_NUMBER x ∧ IS_STRING y) ∨ (IS_STRING x ∧ IS_NUMBER y)) →
      run P vm = some (.ok (.INTERPRET_RUNTIME_ERROR,
        { vm with
          ip := vm.ip + 1, stack := [], free := vm.free + vm.stack.length,
          err := vm.err
            ++ "Operands must be two numbers, two strings, or a combination of strings and numbers."
            ++ "\n" ++ "[line " ++ toString (getLine vm.chunk (vm.ip : Int))
            ++ "] in script\n" }))) := by
  constructor
  · constructor
    · rintro ⟨vm1, h1⟩ hok
      rcases step_add_permitted P vm s x y hfetch hstack hok with ⟨vm2, h2⟩ | h2 <;>
        rw [h2] at h1 <;> simp at h1
    · intro hbad
      exact ⟨_, step_add_error P vm s x y hfetch hstack hbad⟩
  · intro hbad
    rw [← runtimeError_after_fetch]
    exact run_of_step_done P vm _ _ (step_add_error P vm s x y hfetch hstack hbad)

/-- Witness of C4: a number and a boolean. -/
theorem add_error_iff_witness :
    (opState OP_ADD [NUMBER_VAL 1, BOOL_VAL true]).chunk.code[
        (opState OP_ADD [NUMBER_VAL 1, BOOL_VAL true]).ip]? = some OP_ADD
    ∧ (opState OP_ADD [NUMBER_VAL 1, BOOL_VAL true]).stack = [] ++ [NUMBER_VAL 1, BOOL_VAL true]
    ∧ run intHost (opState OP_ADD [NUMBER_VAL 1, BOOL_VAL true])
        = some (.ok (.INTERPRET_RUNTIME_ERROR,
            { opState OP_ADD [] with
              ip := 1,
              err := "Operands must be two numbers, two strings, or a combination of strings and numbers.\n[line 1] in script\n" })) :=
  ⟨by decide, by decide,
    (add_error_iff intHost (opState OP_ADD [NUMBER_VAL 1, BOOL_VAL true]) [] (NUMBER_VAL 1)
      (BOOL_VAL true) (by decide) (by decide)).2 (by decide)⟩

/-- C5: for all numbers a (second-from-top) and b (top) and every stack prefix s,
OP_SUBTRACT, OP_MULTIPLY and OP_DIVIDE leave s ++ [Number (a - b)], s ++ [Number (a * b)],
s ++ [Number (a / b)], and OP_GREATER and OP_LESS leave s ++ [Bool (a > b)] and
s ++ [Bool (a < b)]: the operator always receives a first and b second. -/
theorem binary_numbers (P : Host F) (vm : VM F) (s : List (Value F)) (a b : F)
    (hstack : vm.stack = s ++ [NUMBER_VAL a, NUMBER_VAL b]) :
    (vm.chunk.code[vm.ip]? = some OP_SUBTRACT →
      step P vm = .ok (.next { vm with ip := vm.ip + 1, stack := s ++ [NUMBER_VAL (P.sub a b)],
                                       free := vm.free + 1 }))
    ∧ (vm.chunk.code[vm.ip]? = some OP_MULTIPLY →
      step P vm = .ok (.next { vm with ip := vm.ip + 1, stack := s ++ [NUMBER_VAL (P.mul a b)],
                                       free := vm.free + 1 }))
    ∧ (vm.chunk.code[vm.ip]? = some OP_DIVIDE →
      step P vm = .ok (.next { vm with ip := vm.ip + 1, stack := s ++ [NUMBER_VAL (P.div a b)],
                                       free := vm.free + 1 }))
    ∧ (vm.chunk.code[vm.ip]? = some OP_GREATER →
      step P vm = .ok (.next { vm with ip := vm.ip + 1, stack := s ++ [BOOL_VAL (P.gt a b)],
                                       free := vm.free + 1 }))
    ∧ (vm.chunk.code[vm.ip]? = some OP_LESS →
      step P vm = .ok (.next { vm with ip := vm.ip + 1, stack := s ++ [BOOL_VAL (P.lt a b)],
                                       free := vm.free + 1 })) := by
  obtain ⟨h1, h2, h3, h4, h5⟩ := execute_binary P { vm with ip := vm.ip + 1 }
  refine ⟨?_, ?_, ?_, ?_, ?_⟩ <;> intro hfetch <;> rw [step_eq_execute P vm _ hfetch]
  · rw [h1]; exact BINARY_OP_numbers _ _ _ s a b hstack
  · rw [h2]; exact BINARY_OP_numbers _ _ _ s a b hstack
  · rw [h3]; exact BINARY_OP_numbers _ _ _ s a b hstack
  · rw [h4]; exact BINARY_OP_numbers _ _ _ s a b hstack
  · rw [h5]; exact BINARY_OP_numbers _ _ _ s a b hstack

/-- Witness of C5: 7 - 2 = 5, 7 * 2 = 14, 6 / 3 = 2, 7 > 2, not 7 < 2, under one stack
slot that is left alone. -/
theorem binary_numbers_witness :
    step intHost (opState OP_SUBTRACT [NIL_VAL, NUMBER_VAL 7, NUMBER_VAL 2])
        = .ok (.next { opState OP_SUBTRACT [NIL_VAL, NUMBER_VAL 5] with ip := 1 })
    ∧ step intHost (opState OP_MULTIPLY [NIL_VAL, NUMBER_VAL 7, NUMBER_VAL 2])
        = .ok (.next { opState OP_MULTIPLY [NIL_VAL, NUMBER_VAL 14] with ip := 1 })
    ∧ step intHost (opState OP_DIVIDE [NIL_VAL, NUMBER_VAL 6, NUMBER_VAL 3])
        = .ok (.next { opState OP_DIVIDE [NIL_VAL, NUMBER_VAL 2] with ip := 1 })
    ∧ step intHost (opState OP_GREATER [NIL_VAL, NUMBER_VAL 7, NUMBER_VAL 2])
        = .ok (.next { opState OP_GREATER [NIL_VAL, BOOL_VAL true] with ip := 1 })
    ∧ step intHost (opState OP_LESS [NIL_VAL, NUMBER_VAL 7, NUMBER_VAL 2])
        = .ok (.next { opState OP_LESS [NIL_VAL, BOOL_VAL false] with ip := 1 }) :=
  ⟨(binary_numbers intHost (opState OP_SUBTRACT [NIL_VAL, NUMBER_VAL 7, NUMBER_VAL 2])
      [NIL_VAL] 7 2 (by decide)).1 (by decide),
    (binary_numbers intHost (opState OP_MULTIPLY [NIL_VAL, NUMBER_VAL 7, NUMBER_VAL 2])
      [NIL_VAL] 7 2 (by decide)).2.1 (by decide),
    (binary_numbers intHost (opState OP_DIVIDE [NIL_VAL, NUMBER_VAL 6, NUMBER_VAL 3])
      [NIL_VAL] 6 3 (by decide)).2.2.1 (by decide),
    (binary_numbers intHost (opState OP_GREATER [NIL_VAL, NUMBER_VAL 7, NUMBER_VAL 2])
      [NIL_VAL] 7 2 (by decide)).2.2.2.1 (by decide),
    (binary_numbers intHost (opState OP_LESS [NIL_VAL, NUMBER_VAL 7, NUMBER_VAL 2])
      [NIL_VAL] 7 2 (by decide)).2.2.2.2 (by decide)⟩

/-- C6: with x second-from-top and y on top, each of OP_SUBTRACT, OP_MULTIPLY, OP_DIVIDE,
OP_GREATER and OP_LESS signals a runtime error if and only if x or y is not a Number; the
diagnostic is then "Operands must be numbers." and run returns INTERPRET_RUNTIME_ERROR.  In
particular OP_DIVIDE on two Numbers signals no error, whatever the divisor. -/
theorem binary_error_iff (P : Host F) (vm : VM F) (s : List (Value F)) (x y : Value F) (op : Nat)
    (hop : op = OP_SUBTRACT ∨ op = OP_MULTIPLY ∨ op = OP_DIVIDE ∨ op = OP_GREATER ∨ op = OP_LESS)
    (hfetch : vm.chunk.code[vm.ip]? = some op)
    (hstack : vm.stack = s ++ [x, y]) :
    ((∃ vm1, step P vm = .ok (.done .INTERPRET_RUNTIME_ERROR vm1)) ↔
      (IS_NUMBER x = false ∨ IS_NUMBER y = false))
    ∧ ((IS_NUMBER x = false ∨ IS_NUMBER y = false) →
      run P vm = some (.ok (.INTERPRET_RUNTIME_ERROR,
        { vm with
          ip := vm.ip + 1, stack := [], free := vm.free + vm.stack.length,
          err := vm.err ++ "Operands must be numbers." ++ "\n" ++ "[line "
            ++ toString (getLine vm.chunk (vm.ip : Int)) ++ "] in script\n" })))
    ∧ (∀ a d : F, x = NUMBER_VAL a → y = NUMBER_VAL d → op = OP_DIVIDE →
      step P vm = .ok (.next { vm with ip := vm.ip + 1, stack := s ++ [NUMBER_VAL (P.div a d)],
                                       free := vm.free + 1 })) := by
  refine ⟨⟨?_, ?_⟩, ?_, ?_⟩
  · rintro ⟨vm1, h1⟩
    by_contra hgood
    rcases x with _ | _ | a | _ <;> rcases y with _ | _ | b | _ <;> simp [IS_NUMBER] at hgood
    obtain ⟨v, h2⟩ := step_binary_numbers P vm s a b op hop hfetch hstack
    rw [h2] at h1
    simp at h1
  · intro hbad
    exact ⟨_, step_binary_error P vm s x y op hop hfetch hstack hbad⟩
  · intro hbad
    rw [← runtimeError_after_fetch]
    exact run_of_step_done P vm _ _ (step_binary_error P vm s x y op hop hfetch hstack hbad)
  · intro a d hx hy hdiv
    subst hx hy hdiv
    rw [step_eq_execute P vm _ hfetch, (execute_binary P _).2.2.1]
    exact BINARY_OP_numbers _ _ _ s a d hstack

/-- Witness of C6: dividing a string by a number is a runtime error; dividing 6 by 3 is
not. -/
theorem binary_error_iff_witness :
    run intHost (opState OP_DIVIDE [OBJ_VAL ⟨"a"⟩, NUMBER_VAL 3])
        = some (.ok (.INTERPRET_RUNTIME_ERROR,
            { opState OP_DIVIDE [] with
              ip := 1, err := "Operands must be numbers.\n[line 1] in script\n" }))
    ∧ step intHost (opState OP_DIVIDE [NUMBER_VAL 6, NUMBER_VAL 3])
        = .ok (.next { opState OP_DIVIDE [NUMBER_VAL 2] with ip := 1 }) :=
  ⟨(binary_error_iff intHost (opState OP_DIVIDE [OBJ_VAL ⟨"a"⟩, NUMBER_VAL 3]) []
      (OBJ_VAL ⟨"a"⟩) (NUMBER_VAL 3) OP_DIVIDE (by decide) (by decide) (by decide)).2.1
      (by decide),
    (binary_error_iff intHost (opState OP_DIVIDE [NUMBER_VAL 6, NUMBER_VAL 3]) []
      (NUMBER_VAL 6) (NUMBER_VAL 3) OP_DIVIDE (by decide) (by decide) (by decide)).2.2
      6 3 rfl rfl rfl⟩

/-- C7: for all values a, b of any tags and every stack prefix s, OP_EQUAL on s ++ [a, b]
(b on top) signals no error and leaves s ++ [Bool (valuesEqual a b)]: the second-from-top
value is the first argument and the top value the second. -/
theorem op_equal (P : Host F) (vm : VM F) (s : List (Value F)) (a b : Value F)
    (hfetch : vm.chunk.code[vm.ip]? = some OP_EQUAL)
    (hstack : vm.stack = s ++ [a, b]) :
    step P vm =
      .ok (.next { vm with ip := vm.ip + 1, stack := s ++ [BOOL_VAL (valuesEqual P a b)],
                                       free := vm.free + 1 }) := by
  simp [step, READ_BYTE, hfetch, execute, pop, push, hstack, bind, Except.bind, pure,
    Except.pure]

/-- Witness of C7: nil and false are not equal; "a" and "a" are. -/
theorem op_equal_witness :
    step intHost (opState OP_EQUAL [NIL_VAL, BOOL_VAL false])
        = .ok (.next { opState OP_EQUAL [BOOL_VAL false] with ip := 1 })
    ∧ step intHost (opState OP_EQUAL [OBJ_VAL ⟨"a"⟩, OBJ_VAL ⟨"a"⟩])
        = .ok (.next { opState OP_EQUAL [BOOL_VAL true] with ip := 1 }) :=
  ⟨op_equal intHost (opState OP_EQUAL [NIL_VAL, BOOL_VAL false]) [] NIL_VAL (BOOL_VAL false)
      (by decide) (by decide),
    op_equal intHost (opState OP_EQUAL [OBJ_VAL ⟨"a"⟩, OBJ_VAL ⟨"a"⟩]) [] (OBJ_VAL ⟨"a"⟩)
      (OBJ_VAL ⟨"a"⟩) (by decide) (by decide)⟩

/-- C8: isFalsey(v) is true exactly when v is Nil or Bool(false); it is false for every
Number, for Bool(true) and for every object, the empty string included.  OP_NOT on
s ++ [v] signals no error and leaves s ++ [Bool (isFalsey v)]. -/
theorem isFalsey_not (P : Host F) (vm : VM F) (s : List (Value F)) (v : Value F)
    (hfetch : vm.chunk.code[vm.ip]? = some OP_NOT)
    (hstack : vm.stack = s ++ [v]) :
    (∀ w : Value F, isFalsey w = true ↔ (w = NIL_VAL ∨ w = BOOL_VAL false))
    ∧ (∀ n : F, isFalsey (NUMBER_VAL n) = false)
    ∧ isFalsey (BOOL_VAL true : Value F) = false
    ∧ (∀ o : Obj, isFalsey (Value.obj o : Value F) = false)
    ∧ isFalsey (OBJ_VAL ⟨""⟩ : Value F) = false
    ∧ step P vm =
        .ok (.next { vm with ip := vm.ip + 1, stack := s ++ [BOOL_VAL (isFalsey v)] }) := by
  refine ⟨?_, fun _ => rfl, rfl, fun _ => rfl, rfl, ?_⟩
  · intro w
    rcases w with _ | b | _ | _ <;> simp [isFalsey, IS_NIL, IS_BOOL]
  · simp [step, READ_BYTE, hfetch, execute, pop, push, hstack, bind, Except.bind, pure,
      Except.pure]

/-- Witness of C8: NOT of the number 0 is false, under a slot that is left alone. -/
theorem isFalsey_not_witness :
    step intHost (opState OP_NOT [NIL_VAL, NUMBER_VAL 0])
        = .ok (.next { opState OP_NOT [NIL_VAL, BOOL_VAL false] with ip := 1 }) :=
  (isFalsey_not intHost (opState OP_NOT [NIL_VAL, NUMBER_VAL 0]) [NIL_VAL] (NUMBER_VAL 0)
    (by decide) (by decide)).2.2.2.2.2

/-- C9: OP_NEGATE on s ++ [v]: if v is Number n the stack becomes s ++ [Number (-n)] and
the loop continues; if v is not a Number the run signals a runtime error with the
diagnostic "Operand must be a number.", returns INTERPRET_RUNTIME_ERROR and leaves the
stack empty.  The error is raised if and only if v is not a Number. -/
theorem op_negate (P : Host F) (vm : VM F) (s : List (Value F)) (v : Value F)
    (hfetch : vm.chunk.code[vm.ip]? = some OP_NEGATE)
    (hstack : vm.stack = s ++ [v]) :
    (∀ n : F, v = NUMBER_VAL n →
      step P vm = .ok (.next { vm with ip := vm.ip + 1, stack := s ++ [NUMBER_VAL (P.neg n)] }))
    ∧ (IS_NUMBER v = false →
      run P vm = some (.ok (.INTERPRET_RUNTIME_ERROR,
        { vm with
          ip := vm.ip + 1, stack := [], free := vm.free + vm.stack.length,
          err := vm.err ++ "Operand must be a number." ++ "\n" ++ "[line "
            ++ toString (getLine vm.chunk (vm.ip : Int)) ++ "] in script\n" })))
    ∧ ((∃ vm1, step P vm = .ok (.done .INTERPRET_RUNTIME_ERROR vm1)) ↔ IS_NUMBER v = false) := by
  refine ⟨?_, ?_, ⟨?_, ?_⟩⟩
  · intro n hn
    subst hn
    exact step_negate_number P vm s n hfetch hstack
  · intro hbad
    rw [← runtimeError_after_fetch]
    exact run_of_step_done P vm _ _ (step_negate_error P vm s v hfetch hstack hbad)
  · rintro ⟨vm1, h1⟩
    rcases v with _ | _ | n | _ <;> try rfl
    rw [step_negate_number P vm s n hfetch hstack] at h1
    simp at h1
  · intro hbad
    exact ⟨_, step_negate_error P vm s v hfetch hstack hbad⟩

/-- Witness of C9: negating 5 leaves -5; negating nil is a runtime error that empties a
stack of two. -/
theorem op_negate_witness :
    step intHost (opState OP_NEGATE [NIL_VAL, NUMBER_VAL 5])
        = .ok (.next { opState OP_NEGATE [NIL_VAL, NUMBER_VAL (-5)] with ip := 1 })
    ∧ run intHost (opState OP_NEGATE [NUMBER_VAL 5, NIL_VAL])
        = some (.ok (.INTERPRET_RUNTIME_ERROR,
            { opState OP_NEGATE [] with
              ip := 1, err := "Operand must be a number.\n[line 1] in script\n" })) :=
  ⟨(op_negate intHost (opState OP_NEGATE [NIL_VAL, NUMBER_VAL 5]) [NIL_VAL] (NUMBER_VAL 5)
      (by decide) (by decide)).1 5 rfl,
    (op_negate intHost (opState OP_NEGATE [NUMBER_VAL 5, NIL_VAL]) [NUMBER_VAL 5] NIL_VAL
      (by decide) (by decide)).2.1 (by decide)⟩

/-- C10: OP_RETURN on a stack s ++ [v], for a value v of any tag, pops v, appends to the
output exactly the printed form of v and one newline, and makes run return INTERPRET_OK
with stack s; no further instruction is executed, however many passes the loop is
allowed. -/
theorem op_return (P : Host F) (vm : VM F) (s : List (Value F)) (v : Value F)
    (hfetch : vm.chunk.code[vm.ip]? = some OP_RETURN)
    (hstack : vm.stack = s ++ [v]) :
    step P vm = .ok (.done .INTERPRET_OK
      { vm with ip := vm.ip + 1, stack := s, free := vm.free + 1,
                out := vm.out ++ P.printValue v ++ "\n" })
    ∧ run P vm = some (.ok (.INTERPRET_OK,
        { vm with ip := vm.ip + 1, stack := s, free := vm.free + 1,
                  out := vm.out ++ P.printValue v ++ "\n" }))
    ∧ ∀ fuel : Nat, runLoop P (fuel + 1) vm = some (.ok (.INTERPRET_OK,
        { vm with ip := vm.ip + 1, stack := s, free := vm.free + 1,
                  out := vm.out ++ P.printValue v ++ "\n" })) := by
  have h := step_return P vm s v hfetch hstack
  refine ⟨h, run_of_step_done P vm _ _ h, ?_⟩
  intro fuel
  simp [runLoop, h]

/-- Witness of C10: RETURN followed by more code prints the top value and stops at once. -/
theorem op_return_witness :
    run intHost { chunk := ⟨[OP_RETURN, OP_NIL, OP_RETURN], [], []⟩, ip := 0,
                  stack := [BOOL_VAL true, OBJ_VAL ⟨"ab"⟩], free := 254, out := "",
                  err := "" }
      = some (.ok (.INTERPRET_OK,
          { chunk := ⟨[OP_RETURN, OP_NIL, OP_RETURN], [], []⟩, ip := 1,
            stack := [BOOL_VAL true], free := 255, out := "ab\n", err := "" })) :=
  (op_return intHost { chunk := ⟨[OP_RETURN, OP_NIL, OP_RETURN], [], []⟩, ip := 0,
                       stack := [BOOL_VAL true, OBJ_VAL ⟨"ab"⟩], free := 254, out := "",
                       err := "" }
    [BOOL_VAL true] (OBJ_VAL ⟨"ab"⟩) (by decide) (by decide)).2.1

/-- C11: whenever the loop of run returns INTERPRET_RUNTIME_ERROR, the operand stack is
empty on return, whatever it held before the failing instruction; the error comes from
one of OP_ADD, OP_SUBTRACT, OP_MULTIPLY, OP_DIVIDE, OP_GREATER, OP_LESS, OP_NEGATE, and no
later instruction is executed: the machine returned is the one runtimeError leaves at the
failing instruction, with the program counter just past its opcode and the output as it
was. -/
theorem runtime_error_clean (P : Host F) (fuel : Nat) (vm vm1 : VM F)
    (h : runLoop P fuel vm = some (.ok (.INTERPRET_RUNTIME_ERROR, vm1))) :
    vm1.stack = []
    ∧ ∃ vmf b msg, vmf.chunk = vm.chunk
        ∧ vmf.chunk.code[vmf.ip]? = some b ∧ b ∈ failing
        ∧ step P vmf = .ok (.done .INTERPRET_RUNTIME_ERROR vm1)
        ∧ vm1 = runtimeError { vmf with ip := vmf.ip + 1 } msg
        ∧ vm1.ip = vmf.ip + 1 ∧ vm1.out = vmf.out := by
  obtain ⟨vmf, hc, _, hstep⟩ := runLoop_done_inv P fuel vm vm1 _ h
  obtain ⟨_, hcase⟩ := step_done_inv P vmf vm1 _ hstep
  rcases hcase with ⟨hr, _⟩ | ⟨_, b, msg, hb, hf, hvm⟩
  · simp at hr
  · subst hvm
    exact ⟨rfl, vmf, b, msg, hc, hb, hf, hstep, rfl, rfl, rfl⟩

/-- Witness of C11: NIL, TRUE, NEGATE, RETURN on a stack of one number fails at NEGATE with
three values on the stack; the stack comes back empty, the program counter stops at 3 and
RETURN prints nothing. -/
theorem runtime_error_clean_witness :
    run intHost { chunk := ⟨[OP_NIL, OP_TRUE, OP_NEGATE, OP_RETURN], [], [⟨0, 1⟩]⟩, ip := 0,
                  stack := [NUMBER_VAL 1], free := 255, out := "", err := "" }
      = some (.ok (.INTERPRET_RUNTIME_ERROR,
          { chunk := ⟨[OP_NIL, OP_TRUE, OP_NEGATE, OP_RETURN], [], [⟨0, 1⟩]⟩, ip := 3,
            stack := [], free := 256, out := "",
            err := "Operand must be a number.\n[line 1] in script\n" }))
    ∧ ({ chunk := ⟨[OP_NIL, OP_TRUE, OP_NEGATE, OP_RETURN], [], [⟨0, 1⟩]⟩, ip := 3,
         stack := [], free := 256, out := "",
         err := "Operand must be a number.\n[line 1] in script\n" } : VM Int).stack = [] :=
  ⟨by decide,
    (runtime_error_clean intHost 5
      { chunk := ⟨[OP_NIL, OP_TRUE, OP_NEGATE, OP_RETURN], [], [⟨0, 1⟩]⟩, ip := 0,
        stack := [NUMBER_VAL 1], free := 255, out := "", err := "" }
      { chunk := ⟨[OP_NIL, OP_TRUE, OP_NEGATE, OP_RETURN], [], [⟨0, 1⟩]⟩, ip := 3,
        stack := [], free := 256, out := "",
        err := "Operand must be a number.\n[line 1] in script\n" }
      (by decide)).1⟩

/-- C12 (amended): provided the operand stack is not full (a slot of the array is free
above the top), for every index i < 256 within the pool, the bytes [OP_CONSTANT, i] push
constants[i] and advance the program counter by exactly 2; for every index i < 2^24 within
the pool, the bytes [OP_CONSTANT_LONG, i mod 256, (i / 256) mod 256, (i / 65536) mod 256]
push constants[i] and advance it by exactly 4; OP_NIL, OP_TRUE and OP_FALSE push Nil,
Bool(true), Bool(false) and advance it by exactly 1.  Each push takes one free slot. -/
theorem constant_loads (P : Host F) (vm : VM F) (hroom : 0 < vm.free) :
    (∀ i v, i < 256 → vm.chunk.constants[i]? = some v →
      vm.chunk.code[vm.ip]? = some OP_CONSTANT → vm.chunk.code[vm.ip + 1]? = some i →
      step P vm = .ok (.next { vm with ip := vm.ip + 2, stack := vm.stack ++ [v],
                                       free := vm.free - 1 }))
    ∧ (∀ i v, i < 2 ^ 24 → vm.chunk.constants[i]? = some v →
      vm.chunk.code[vm.ip]? = some OP_CONSTANT_LONG →
      vm.chunk.code[vm.ip + 1]? = some (i % 256) →
      vm.chunk.code[vm.ip + 2]? = some (i / 256 % 256) →
      vm.chunk.code[vm.ip + 3]? = some (i / 65536 % 256) →
      step P vm = .ok (.next { vm with ip := vm.ip + 4, stack := vm.stack ++ [v],
                                       free := vm.free - 1 }))
    ∧ (vm.chunk.code[vm.ip]? = some OP_NIL →
      step P vm = .ok (.next { vm with ip := vm.ip + 1, stack := vm.stack ++ [NIL_VAL],
                                       free := vm.free - 1 }))
    ∧ (vm.chunk.code[vm.ip]? = some OP_TRUE →
      step P vm = .ok (.next { vm with ip := vm.ip + 1, stack := vm.stack ++ [BOOL_VAL true],
                                       free := vm.free - 1 }))
    ∧ (vm.chunk.code[vm.ip]? = some OP_FALSE →
      step P vm = .ok (.next { vm with ip := vm.ip + 1, stack := vm.stack ++ [BOOL_VAL false],
                                       free := vm.free - 1 })) := by
  have hne : vm.free ≠ 0 := by omega
  refine ⟨?_, ?_, ?_, ?_, ?_⟩
  · intro i v _ hv h0 h1
    simp [step, READ_BYTE, READ_CONSTANT, constantAt, execute, push, h0, h1, hv, hne, bind,
      Except.bind, pure, Except.pure]
  · intro i v hi hv h0 h1 h2 h3
    have h2' : vm.chunk.code[vm.ip + 1 + 1]? = some (i / 256 % 256) := h2
    have h3' : vm.chunk.code[vm.ip + 1 + 1 + 1]? = some (i / 65536 % 256) := h3
    simp [step, READ_BYTE, READ_LONG_CONSTANT, constantAt, execute, push, h0, h1, h2', h3',
      long_index i hi, hv, hne, bind, Except.bind, pure, Except.pure]
  · intro h0
    simp [step, READ_BYTE, execute, push, h0, hne, bind, Except.bind, pure, Except.pure]
  · intro h0
    simp [step, READ_BYTE, execute, push, h0, hne, bind, Except.bind, pure, Except.pure]
  · intro h0
    simp [step, READ_BYTE, execute, push, h0, hne, bind, Except.bind, pure, Except.pure]

/-- Witness of C12: on a stack of 256 slots holding one value, over a pool of 300
constants, the long form loads constant 299 from the bytes 43, 1, 0 and the short form
loads constant 7; NIL, TRUE and FALSE push their literals.  Each leaves 254 slots free. -/
theorem constant_loads_witness :
    0 < (poolState [OP_CONSTANT_LONG, 43, 1, 0] [NIL_VAL]).free
    ∧ step intHost (poolState [OP_CONSTANT_LONG, 43, 1, 0] [NIL_VAL])
      = .ok (.next { poolState [OP_CONSTANT_LONG, 43, 1, 0] [NIL_VAL, NUMBER_VAL 299]
                     with ip := 4 })
    ∧ step intHost (poolState [OP_CONSTANT, 7] [NIL_VAL])
      = .ok (.next { poolState [OP_CONSTANT, 7] [NIL_VAL, NUMBER_VAL 7] with ip := 2 })
    ∧ step intHost (opState OP_NIL [NUMBER_VAL 1])
      = .ok (.next { opState OP_NIL [NUMBER_VAL 1, NIL_VAL] with ip := 1 })
    ∧ step intHost (opState OP_TRUE [NUMBER_VAL 1])
      = .ok (.next { opState OP_TRUE [NUMBER_VAL 1, BOOL_VAL true] with ip := 1 })
    ∧ step intHost (opState OP_FALSE [NUMBER_VAL 1])
      = .ok (.next { opState OP_FALSE [NUMBER_VAL 1, BOOL_VAL false] with ip := 1 })
    ∧ (opState OP_NIL [NUMBER_VAL 1, NIL_VAL]).free = 254 :=
  ⟨by decide,
    (constant_loads intHost (poolState [OP_CONSTANT_LONG, 43, 1, 0] [NIL_VAL]) (by decide)).2.1
      299 (NUMBER_VAL 299) (by decide) (pool_constant _ _ _ (by decide)) (by decide)
      (by decide) (by decide) (by decide),
    (constant_loads intHost (poolState [OP_CONSTANT, 7] [NIL_VAL]) (by decide)).1
      7 (NUMBER_VAL 7) (by decide) (pool_constant _ _ _ (by decide)) (by decide) (by decide),
    (constant_loads intHost (opState OP_NIL [NUMBER_VAL 1]) (by decide)).2.2.1 (by decide),
    (constant_loads intHost (opState OP_TRUE [NUMBER_VAL 1]) (by decide)).2.2.2.1 (by decide),
    (constant_loads intHost (opState OP_FALSE [NUMBER_VAL 1]) (by decide)).2.2.2.2 (by decide),
    by decide⟩

/-- Counterexample to C12 as stated: on a stack of 256 slots that holds 256 values, the
bytes [OP_CONSTANT, 0] with constant 0 in the pool, the bytes [OP_CONSTANT_LONG, 0, 0, 0]
and each of the bytes OP_NIL, OP_TRUE, OP_FALSE push nothing and do not advance to the
next instruction: the write through the top pointer falls outside the array, so the pass
has no defined result. -/
theorem constant_loads_counterexample :
    (fullState 256 [OP_CONSTANT, 0]).stack.length = 256
    ∧ (fullState 256 [OP_CONSTANT, 0]).capacity = 256
    ∧ (fullState 256 [OP_CONSTANT, 0]).chunk.constants[0]? = some NIL_VAL
    ∧ step intHost (fullState 256 [OP_CONSTANT, 0]) = .error .stackOverflow
    ∧ step intHost (fullState 256 [OP_CONSTANT_LONG, 0, 0, 0]) = .error .stackOverflow
    ∧ step intHost (fullState 256 [OP_NIL]) = .error .stackOverflow
    ∧ step intHost (fullState 256 [OP_TRUE]) = .error .stackOverflow
    ∧ step intHost (fullState 256 [OP_FALSE]) = .error .stackOverflow
    ∧ ¬ (step intHost (fullState 256 [OP_CONSTANT, 0])
        = .ok (.next { fullState 256 [OP_CONSTANT, 0] with
            ip := 2, stack := (fullState 256 [OP_CONSTANT, 0]).stack ++ [NIL_VAL] })) := by
  have h : step intHost (fullState 256 [OP_CONSTANT, 0]) = .error .stackOverflow := rfl
  refine ⟨by simp only [fullState, List.length_replicate],
    by simp only [fullState, VM.capacity, List.length_replicate], rfl, h, rfl, rfl, rfl, rfl, ?_⟩
  rw [h]
  simp

/-- C13 (amended): the operand stack is emptied by initVM and by every runtime error, not
by interpret: for every VM state and every source that compiles, interpret begins
executing the chunk at offset 0 with the operand stack exactly as it was on entry. -/
theorem interpret_keeps_stack (P : Host F) (compile : String → Bool × Chunk F) (vm : VM F)
    (source : String) (chunk : Chunk F) (hc : compile source = (true, chunk)) :
    interpret P compile vm source = run P { vm with chunk := chunk, ip := 0 }
    ∧ ({ vm with chunk := chunk, ip := 0 } : VM F).stack = vm.stack
    ∧ (initVM vm).stack = []
    ∧ (∀ vm1, interpret P compile vm source = some (.ok (.INTERPRET_RUNTIME_ERROR, vm1)) →
        vm1.stack = []) := by
  have h : interpret P compile vm source = run P { vm with chunk := chunk, ip := 0 } := by
    simp [interpret, hc]
  refine ⟨h, rfl, rfl, ?_⟩
  intro vm1 h1
  rw [h] at h1
  obtain ⟨vmf, _, _, hstep⟩ := runLoop_done_inv P _ _ vm1 _ h1
  obtain ⟨_, hcase⟩ := step_done_inv P vmf vm1 _ hstep
  rcases hcase with ⟨hr, _⟩ | ⟨_, b, msg, _, _, hvm⟩
  · simp at hr
  · subst hvm; rfl

/-- Witness of C13: after a run that left nil on the stack, a source compiled to the
single instruction RETURN prints that nil. -/
theorem interpret_keeps_stack_witness :
    compileTo ⟨[OP_RETURN], [], []⟩ "b" = (true, ⟨[OP_RETURN], [], []⟩)
    ∧ interpret intHost (compileTo ⟨[OP_RETURN], [], []⟩) staleVM "b"
      = run intHost { staleVM with chunk := ⟨[OP_RETURN], [], []⟩, ip := 0 }
    ∧ run intHost { staleVM with chunk := ⟨[OP_RETURN], [], []⟩, ip := 0 }
      = some (.ok (.INTERPRET_OK,
          { chunk := ⟨[OP_RETURN], [], []⟩, ip := 1, stack := [], free := 256, out := "true\nnil\n",
            err := "" })) :=
  ⟨rfl,
    (interpret_keeps_stack intHost (compileTo ⟨[OP_RETURN], [], []⟩) staleVM "b"
      ⟨[OP_RETURN], [], []⟩ rfl).1,
    by decide⟩

/-- Counterexample to C13 as stated: a first successful run (NIL, TRUE, RETURN from an
empty stack) leaves nil on the stack; the next call of interpret, on a source compiled to
the single instruction RETURN, pops and prints that nil and returns INTERPRET_OK, whereas a
run begun with an empty stack would underflow. -/
theorem interpret_keeps_stack_counterexample :
    interpret intHost (compileTo ⟨[OP_NIL, OP_TRUE, OP_RETURN], [], []⟩) freshVM "a"
      = some (.ok (.INTERPRET_OK, staleVM))
    ∧ staleVM.stack = [NIL_VAL]
    ∧ interpret intHost (compileTo ⟨[OP_RETURN], [], []⟩) staleVM "b"
      = some (.ok (.INTERPRET_OK,
          { chunk := ⟨[OP_RETURN], [], []⟩, ip := 1, stack := [], free := 256, out := "true\nnil\n",
            err := "" }))
    ∧ run intHost { staleVM with chunk := ⟨[OP_RETURN], [], []⟩, ip := 0, stack := [] }
      = some (.error .stackUnderflow)
    ∧ interpret intHost (compileTo ⟨[OP_RETURN], [], []⟩) staleVM "b"
      ≠ run intHost { staleVM with chunk := ⟨[OP_RETURN], [], []⟩, ip := 0, stack := [] } := by
  decide

/-- C14: if compile reports failure, interpret returns INTERPRET_COMPILE_ERROR and the
machine (operand stack, program counter, chunk, output) is exactly what it was, whatever
compile wrote into the chunk: no instruction is executed; if compile succeeds, interpret
returns exactly what run produces on that chunk from offset 0. -/
theorem interpret_compile (P : Host F) (compile : String → Bool × Chunk F) (vm : VM F)
    (source : String) :
    ((compile source).1 = false →
      interpret P compile vm source = some (.ok (.INTERPRET_COMPILE_ERROR, vm)))
    ∧ (∀ chunk, compile source = (true, chunk) →
      interpret P compile vm source = run P { vm with chunk := chunk, ip := 0 }) := by
  constructor
  · intro h
    cases hc : compile source with
    | mk ok chunk =>
      rw [hc] at h
      simp at h
      subst h
      simp [interpret, hc]
  · intro chunk hc
    simp [interpret, hc]

/-- Witness of C14: a compiler that fails after writing RETURN into the chunk leaves the
machine and its stack untouched; one that succeeds with the same chunk has it run. -/
theorem interpret_compile_witness :
    interpret intHost (fun _ => (false, ⟨[OP_RETURN], [], []⟩)) staleVM "?"
      = some (.ok (.INTERPRET_COMPILE_ERROR, staleVM))
    ∧ interpret intHost (compileTo ⟨[OP_RETURN], [], []⟩) staleVM "b"
      = run intHost { staleVM with chunk := ⟨[OP_RETURN], [], []⟩, ip := 0 } :=
  ⟨(interpret_compile intHost (fun _ => (false, ⟨[OP_RETURN], [], []⟩)) staleVM "?").1 rfl,
    (interpret_compile intHost (compileTo ⟨[OP_RETURN], [], []⟩) staleVM "b").2
      ⟨[OP_RETURN], [], []⟩ rfl⟩

/-- C15: for every implemented opcode and every stack of depth d at least the arity of the
opcode (0 for the literal pushes, 1 for NOT, NEGATE, RETURN, 2 for the binary operators),
the depth after the handler is exactly d + 1 for the literal pushes, d for NOT and NEGATE,
d - 1 for the binary operators and RETURN when the handler succeeds, and exactly 0 when it
signals a runtime error; a pass ends in no other way with a stack, and it does not
underflow. -/
theorem stack_depth (P : Host F) (vm : VM F) (b : Nat) (hb : b ∈ implemented)
    (hfetch : vm.chunk.code[vm.ip]? = some b) (hd : arity b ≤ vm.stack.length) :
    step P vm ≠ .error .stackUnderflow
    ∧ ∀ c, step P vm = .ok c →
      (∀ vm1, c = .next vm1 →
        b ≠ OP_RETURN ∧ vm1.stack.length = depthAfter b vm.stack.length)
      ∧ (∀ vm1, c = .done .INTERPRET_OK vm1 →
        b = OP_RETURN ∧ vm1.stack.length = depthAfter b vm.stack.length)
      ∧ (∀ vm1, c = .done .INTERPRET_RUNTIME_ERROR vm1 → vm1.stack.length = 0)
      ∧ (∀ vm1, c ≠ .done .INTERPRET_COMPILE_ERROR vm1) := by
  obtain ⟨s, operands, hs, hlen, hcase⟩ := step_shape P vm b hb hfetch hd
  obtain ⟨hd1, hd2⟩ := depthAfter_eq b vm.stack.length hb hd
  have hsl : vm.stack.length = s.length + arity b := by rw [hs, List.length_append, hlen]
  rcases hcase with ⟨hne, k, v, fr, _, h⟩ | ⟨hret, o, h⟩ | ⟨_, msg, h⟩ | h | h | h | h
  · refine ⟨by rw [h]; simp, ?_⟩
    intro c hc
    rw [h] at hc
    simp at hc
    subst hc
    have := hd1 hne
    refine ⟨?_, ?_, ?_, ?_⟩ <;> intro vm1 <;> simp
    intro h1
    subst h1
    refine ⟨hne, ?_⟩
    simp
    omega
  · refine ⟨by rw [h]; simp, ?_⟩
    intro c hc
    rw [h] at hc
    simp at hc
    subst hc
    have := hd2 hret
    refine ⟨?_, ?_, ?_, ?_⟩ <;> intro vm1 <;> simp
    intro h1
    subst h1
    refine ⟨hret, ?_⟩
    simp
    omega
  · refine ⟨by rw [h]; simp, ?_⟩
    intro c hc
    rw [h] at hc
    simp at hc
    subst hc
    refine ⟨?_, ?_, ?_, ?_⟩ <;> intro vm1 <;> simp
    intro h1
    subst h1
    rfl
  · exact ⟨by rw [h]; simp, fun c hc => by rw [h] at hc; simp at hc⟩
  · exact ⟨by rw [h]; simp, fun c hc => by rw [h] at hc; simp at hc⟩
  · exact ⟨by rw [h]; simp, fun c hc => by rw [h] at hc; simp at hc⟩
  · exact ⟨by rw [h]; simp, fun c hc => by rw [h] at hc; simp at hc⟩

/-- Witness of C15: on a stack of depth 3, ADD of two numbers leaves depth 2, ADD of a
number and a boolean leaves depth 0, TRUE leaves depth 4 and RETURN leaves depth 2. -/
theorem stack_depth_witness :
    (step intHost (opState OP_ADD [NIL_VAL, NUMBER_VAL 1, NUMBER_VAL 2])
        = .ok (.next { opState OP_ADD [NIL_VAL, NUMBER_VAL 3] with ip := 1 })
      ∧ ({ opState OP_ADD [NIL_VAL, NUMBER_VAL 3] with ip := 1 } : VM Int).stack.length
        = depthAfter OP_ADD 3
      ∧ depthAfter OP_ADD 3 = 2)
    ∧ (runtimeError { opState OP_ADD [NIL_VAL, NUMBER_VAL 1, BOOL_VAL true] with ip := 1 }
        "Operands must be two numbers, two strings, or a combination of strings and numbers."
        ).stack.length = 0
    ∧ (({ opState OP_TRUE [NIL_VAL, NUMBER_VAL 1, NUMBER_VAL 2, BOOL_VAL true] with ip := 1 }
        : VM Int).stack.length = depthAfter OP_TRUE 3 ∧ depthAfter OP_TRUE 3 = 4)
    ∧ (({ opState OP_RETURN [NIL_VAL, NUMBER_VAL 1] with ip := 1, out := "2\n" }
        : VM Int).stack.length = depthAfter OP_RETURN 3 ∧ depthAfter OP_RETURN 3 = 2) :=
  ⟨⟨by decide,
      (((stack_depth intHost (opState OP_ADD [NIL_VAL, NUMBER_VAL 1, NUMBER_VAL 2]) OP_ADD
        (by decide) (by decide) (by decide)).2
        (.next { opState OP_ADD [NIL_VAL, NUMBER_VAL 3] with ip := 1 }) (by decide)).1 _ rfl).2,
      by decide⟩,
    ((stack_depth intHost (opState OP_ADD [NIL_VAL, NUMBER_VAL 1, BOOL_VAL true]) OP_ADD
      (by decide) (by decide) (by decide)).2 _ (by decide)).2.2.1 _ rfl,
    ⟨(((stack_depth intHost (opState OP_TRUE [NIL_VAL, NUMBER_VAL 1, NUMBER_VAL 2]) OP_TRUE
        (by decide) (by decide) (by decide)).2
        (.next { opState OP_TRUE [NIL_VAL, NUMBER_VAL 1, NUMBER_VAL 2, BOOL_VAL true]
                 with ip := 1 }) (by decide)).1 _ rfl).2,
      by decide⟩,
    ⟨(((stack_depth intHost (opState OP_RETURN [NIL_VAL, NUMBER_VAL 1, NUMBER_VAL 2]) OP_RETURN
        (by decide) (by decide) (by decide)).2
        (.done .INTERPRET_OK { opState OP_RETURN [NIL_VAL, NUMBER_VAL 1] with ip := 1,
                                                                               out := "2\n" })
        (by decide)).2.1 _ rfl).2,
      by decide⟩⟩

/-- C16: for every runtime error raised by the loop of run, the failing instruction is one
of OP_ADD, OP_SUBTRACT, OP_MULTIPLY, OP_DIVIDE, OP_GREATER, OP_LESS, OP_NEGATE, runtimeError
is called with the program counter one past its opcode byte (these opcodes read no operand
bytes), so the offset it passes to getLine, the program counter minus one, is the offset of
that opcode byte, and the line reported is getLine of that offset. -/
theorem error_line_offset (P : Host F) (fuel : Nat) (vm vm1 : VM F)
    (h : runLoop P fuel vm = some (.ok (.INTERPRET_RUNTIME_ERROR, vm1))) :
    ∃ vmf b msg, vmf.chunk = vm.chunk
      ∧ vmf.chunk.code[vmf.ip]? = some b ∧ b ∈ failing
      ∧ step P vmf = .ok (.done .INTERPRET_RUNTIME_ERROR vm1)
      ∧ vm1 = runtimeError { vmf with ip := vmf.ip + 1 } msg
      ∧ ({ vmf with ip := vmf.ip + 1 } : VM F).ip - 1 = vmf.ip
      ∧ vm1.err = vmf.err ++ msg ++ "\n" ++ "[line "
          ++ toString (getLine vm.chunk (vmf.ip : Int)) ++ "] in script\n" := by
  obtain ⟨vmf, hc, _, hstep⟩ := runLoop_done_inv P fuel vm vm1 _ h
  obtain ⟨_, hcase⟩ := step_done_inv P vmf vm1 _ hstep
  rcases hcase with ⟨hr, _⟩ | ⟨_, b, msg, hb, hf, hvm⟩
  · simp at hr
  · refine ⟨vmf, b, msg, hc, hb, hf, hstep, hvm, rfl, ?_⟩
    rw [hvm, runtimeError_after_fetch, hc]

/-- Witness of C16: in CONSTANT 0, NEGATE, with line 7 beginning at offset 2, the failing
NEGATE sits at offset 2, after the operand byte of CONSTANT, and line 7 is reported. -/
theorem error_line_offset_witness :
    run intHost { chunk := ⟨[OP_CONSTANT, 0, OP_NEGATE], [NIL_VAL], [⟨0, 1⟩, ⟨2, 7⟩]⟩, ip := 0,
                  stack := [], free := 256, out := "", err := "" }
      = some (.ok (.INTERPRET_RUNTIME_ERROR,
          { chunk := ⟨[OP_CONSTANT, 0, OP_NEGATE], [NIL_VAL], [⟨0, 1⟩, ⟨2, 7⟩]⟩, ip := 3,
            stack := [], free := 256, out := "", err := "Operand must be a number.\n[line 7] in script\n" }))
    ∧ ∃ vmf b msg,
        vmf.chunk = (⟨[OP_CONSTANT, 0, OP_NEGATE], [NIL_VAL], [⟨0, 1⟩, ⟨2, 7⟩]⟩ : Chunk Int)
        ∧ vmf.chunk.code[vmf.ip]? = some b ∧ b ∈ failing
        ∧ step intHost vmf = .ok (.done .INTERPRET_RUNTIME_ERROR
            { chunk := ⟨[OP_CONSTANT, 0, OP_NEGATE], [NIL_VAL], [⟨0, 1⟩, ⟨2, 7⟩]⟩, ip := 3,
              stack := [], free := 256, out := "",
              err := "Operand must be a number.\n[line 7] in script\n" })
        ∧ ({ chunk := ⟨[OP_CONSTANT, 0, OP_NEGATE], [NIL_VAL], [⟨0, 1⟩, ⟨2, 7⟩]⟩, ip := 3,
             stack := [], free := 256, out := "",
             err := "Operand must be a number.\n[line 7] in script\n" } : VM Int)
            = runtimeError { vmf with ip := vmf.ip + 1 } msg
        ∧ ({ vmf with ip := vmf.ip + 1 } : VM Int).ip - 1 = vmf.ip
        ∧ "Operand must be a number.\n[line 7] in script\n"
            = vmf.err ++ msg ++ "\n" ++ "[line "
              ++ toString (getLine (⟨[OP_CONSTANT, 0, OP_NEGATE], [NIL_VAL],
                  [⟨0, 1⟩, ⟨2, 7⟩]⟩ : Chunk Int) (vmf.ip : Int)) ++ "] in script\n" :=
  ⟨by decide,
    error_line_offset intHost 4
      { chunk := ⟨[OP_CONSTANT, 0, OP_NEGATE], [NIL_VAL], [⟨0, 1⟩, ⟨2, 7⟩]⟩, ip := 0,
        stack := [], free := 256, out := "", err := "" }
      { chunk := ⟨[OP_CONSTANT, 0, OP_NEGATE], [NIL_VAL], [⟨0, 1⟩, ⟨2, 7⟩]⟩, ip := 3,
        stack := [], free := 256, out := "", err := "Operand must be a number.\n[line 7] in script\n" }
      (by decide)⟩

/-- C17: every instruction executed by run leaves the chunk (code bytes, constant pool,
line table) unchanged, and every instruction that does not signal an error leaves
unchanged all stack slots below the operands it consumes: below the top 2 for the binary
operators, below the top 1 for NOT, NEGATE and RETURN, the whole stack for the literal
pushes (and for a byte without a case). -/
theorem frame_condition (P : Host F) (vm : VM F) (b : Nat)
    (hfetch : vm.chunk.code[vm.ip]? = some b) :
    (∀ c, step P vm = .ok c → c.vm.chunk = vm.chunk)
    ∧ (b ∈ implemented → arity b ≤ vm.stack.length →
        ∀ c, step P vm = .ok c → (∀ vm1, c ≠ .done .INTERPRET_RUNTIME_ERROR vm1) →
          vm.stack.take (vm.stack.length - arity b) <+: c.vm.stack)
    ∧ (b ∉ implemented → ∀ c, step P vm = .ok c → c.vm.stack = vm.stack) := by
  refine ⟨?_, ?_, ?_⟩
  · intro c hc
    cases c with
    | next vm1 => exact (step_next_inv P vm vm1 hc).1
    | done r vm1 =>
      obtain ⟨_, hcase⟩ := step_done_inv P vm vm1 r hc
      rcases hcase with ⟨_, _, st, v, _, hvm⟩ | ⟨_, b2, msg, _, _, hvm⟩ <;> subst hvm <;> rfl
  · intro hb hd c hc hne
    obtain ⟨s, operands, hs, hlen, hcase⟩ := step_shape P vm b hb hfetch hd
    have htake : vm.stack.take (vm.stack.length - arity b) = s := by
      rw [hs, List.length_append, hlen, Nat.add_sub_cancel, List.take_left']
      rfl
    rw [htake]
    rcases hcase with ⟨_, k, v, fr, _, h⟩ | ⟨_, o, h⟩ | ⟨_, msg, h⟩ | h | h | h | h <;>
      rw [h] at hc <;> simp at hc
    · subst hc; exact List.prefix_append s [v]
    · subst hc; exact List.prefix_refl s
    · subst hc; exact absurd rfl (hne _)
  · intro hb c hc
    rw [step_eq_execute P vm b hfetch, execute_unimplemented P b _ hb] at hc
    simp at hc
    subst hc
    rfl

/-- Witness of C17: SUBTRACT on [nil, true, 7, 2] leaves [nil, true] below the result in
place. -/
theorem frame_condition_witness :
    step intHost (opState OP_SUBTRACT [NIL_VAL, BOOL_VAL true, NUMBER_VAL 7, NUMBER_VAL 2])
      = .ok (.next { opState OP_SUBTRACT [NIL_VAL, BOOL_VAL true, NUMBER_VAL 5] with ip := 1 })
    ∧ ([NIL_VAL, BOOL_VAL true] : List (Value Int))
        <+: [NIL_VAL, BOOL_VAL true, NUMBER_VAL 5]
    ∧ ({ opState OP_SUBTRACT [NIL_VAL, BOOL_VAL true, NUMBER_VAL 5] with ip := 1 } : VM Int).chunk
        = (opState OP_SUBTRACT [NIL_VAL, BOOL_VAL true, NUMBER_VAL 7, NUMBER_VAL 2]).chunk :=
  ⟨by decide,
    (frame_condition intHost
      (opState OP_SUBTRACT [NIL_VAL, BOOL_VAL true, NUMBER_VAL 7, NUMBER_VAL 2]) OP_SUBTRACT
      (by decide)).2.1 (by decide) (by decide)
      (.next { opState OP_SUBTRACT [NIL_VAL, BOOL_VAL true, NUMBER_VAL 5] with ip := 1 })
      (by decide) (by simp),
    (frame_condition intHost
      (opState OP_SUBTRACT [NIL_VAL, BOOL_VAL true, NUMBER_VAL 7, NUMBER_VAL 2]) OP_SUBTRACT
      (by decide)).1
      (.next { opState OP_SUBTRACT [NIL_VAL, BOOL_VAL true, NUMBER_VAL 5] with ip := 1 })
      (by decide)⟩

/-- C18: an opcode byte without a case in the switch of run (every catalogue opcode other
than the 15 implemented ones, and every byte above OP_METHOD) is executed as a one-byte
no-op: stack, output and error stream are unchanged, no error is signalled, the program
counter advances by exactly 1 and the loop continues from there, so that a byte meant as
its operand is fetched as the next opcode. -/
theorem unimplemented_noop (P : Host F) (vm : VM F) (b : Nat) (hb : b ∉ implemented)
    (hfetch : vm.chunk.code[vm.ip]? = some b) :
    step P vm = .ok (.next { vm with ip := vm.ip + 1 })
    ∧ (∀ fuel, runLoop P (fuel + 1) vm = runLoop P fuel { vm with ip := vm.ip + 1 })
    ∧ (∀ c, OP_METHOD < c → c ∉ implemented)
    ∧ (∀ c ∈ [OP_POP, OP_GET_LOCAL, OP_GET_LOCAL_LONG, OP_SET_LOCAL, OP_SET_LOCAL_LONG,
        OP_GET_GLOBAL, OP_GET_GLOBAL_LONG, OP_DEFINE_GLOBAL, OP_DEFINE_GLOBAL_LONG,
        OP_SET_GLOBAL, OP_SET_GLOBAL_LONG, OP_GET_UPVALUE, OP_GET_UPVALUE_LONG, OP_SET_UPVALUE,
        OP_SET_UPVALUE_LONG, OP_GET_PROPERTY, OP_SET_PROPERTY, OP_GET_SUPER, OP_PRINT, OP_JUMP,
        OP_JUMP_IF_FALSE, OP_LOOP, OP_CALL, OP_INVOKE, OP_SUPER_INVOKE, OP_CLOSURE,
        OP_CLOSURE_LONG, OP_CLOSE_UPVALUE, OP_CLASS, OP_INHERIT, OP_METHOD], c ∉ implemented) := by
  have hstep : step P vm = .ok (.next { vm with ip := vm.ip + 1 }) := by
    rw [step_eq_execute P vm b hfetch, execute_unimplemented P b _ hb]
  refine ⟨hstep, ?_, ?_, by decide⟩
  · intro fuel
    rw [runLoop_succ, hstep]
  · intro c hc him
    simp only [implemented, List.mem_cons, List.mem_singleton, List.not_mem_nil, or_false] at him
    rcases him with h | h | h | h | h | h | h | h | h | h | h | h | h | h | h <;> subst h <;>
      exact absurd hc (by decide)

/-- Witness of C18: GET_LOCAL followed by the operand byte 42 does nothing, and the loop
then executes the operand byte as OP_RETURN. -/
theorem unimplemented_noop_witness :
    step intHost { chunk := ⟨[OP_GET_LOCAL, 42], [], []⟩, ip := 0, stack := [NUMBER_VAL 5],
                   free := 255, out := "", err := "" }
      = .ok (.next { chunk := ⟨[OP_GET_LOCAL, 42], [], []⟩, ip := 1, stack := [NUMBER_VAL 5],
                     free := 255, out := "", err := "" })
    ∧ run intHost { chunk := ⟨[OP_GET_LOCAL, 42], [], []⟩, ip := 0, stack := [NUMBER_VAL 5],
                    free := 255, out := "", err := "" }
      = some (.ok (.INTERPRET_OK,
          { chunk := ⟨[OP_GET_LOCAL, 42], [], []⟩, ip := 2, stack := [], free := 256,
            out := "5\n", err := "" })) :=
  ⟨(unimplemented_noop intHost
      { chunk := ⟨[OP_GET_LOCAL, 42], [], []⟩, ip := 0, stack := [NUMBER_VAL 5], free := 255,
        out := "", err := "" } OP_GET_LOCAL (by decide) (by decide)).1,
    by decide⟩

/-- C19: no cast of run is reached by a value of another tag: AS_NUMBER is applied only to
popped values that passed IS_NUMBER and AS_STRING only to popped values that passed
IS_STRING, the first pop being the slot peek(0) tested and the second the slot peek(1)
tested.  With the casts fallible, their failure is unreachable in a pass and in a run, for
every stack (so for every stack of depth at least the arity of the opcode). -/
theorem casts_guarded (P : Host F) (vm : VM F) :
    step P vm ≠ .error .badCast
    ∧ (∀ fuel, runLoop P fuel vm ≠ some (.error .badCast))
    ∧ (∀ v vm1, pop vm = .ok (v, vm1) →
        peek vm 0 = .ok v ∧ ∀ w vm2, pop vm1 = .ok (w, vm2) → peek vm 1 = .ok w)
    ∧ (∀ v : Value F, IS_NUMBER v = true → ∃ n, AS_NUMBER v = .ok n)
    ∧ (∀ v : Value F, IS_STRING v = true → ∃ s, AS_STRING v = .ok s) := by
  have hstep : ∀ vm : VM F, step P vm ≠ .error .badCast := by
    intro vm h
    have := step_error_inv P vm _ h
    simp at this
  refine ⟨hstep vm, ?_, ?_, ?_, ?_⟩
  · intro fuel h
    obtain ⟨vmf, _, hf⟩ := runLoop_error_inv P fuel vm _ h
    exact hstep vmf hf
  · intro v vm1 h
    rcases stack_cases vm.stack with hs | ⟨x, hs⟩ | ⟨s, x, y, hs⟩
    · simp [pop, hs] at h
    · simp [pop, hs] at h
      obtain ⟨h1, h2⟩ := h
      subst h1 h2
      refine ⟨by simp [peek, hs], ?_⟩
      intro w vm2 h2
      simp [pop] at h2
    · simp [pop, hs] at h
      obtain ⟨h1, h2⟩ := h
      subst h1 h2
      refine ⟨by simp [peek, hs], ?_⟩
      intro w vm2 h2
      simp [pop] at h2
      obtain ⟨h3, _⟩ := h2
      subst h3
      simp [peek, hs]
  · intro v hv
    cases v <;> simp [IS_NUMBER] at hv
    exact ⟨_, rfl⟩
  · intro v hv
    rcases v with _ | _ | _ | (_ | _) <;> simp [IS_STRING] at hv
    exact ⟨_, rfl⟩

set_option maxRecDepth 100000 in
/-- On a fresh machine of 256 slots, 257 instructions OP_NIL overflow the stack in the
257th pass, before the OP_RETURN that follows them is reached; with 256 of them the run
reaches the OP_RETURN with the stack full. -/
theorem run_nilChunk :
    run intHost { freshVM with chunk := nilChunk 257 } = some (.error .stackOverflow)
    ∧ (run intHost { freshVM with chunk := nilChunk 256 }).map (fun r => r.map (fun p => p.1))
      = some (.ok .INTERPRET_OK) :=
  ⟨rfl, rfl⟩

/-- C20 (amended): every pass of the loop of run that ends without a fault moves the
program counter forward by exactly 1, 2 or 4, so on a chunk of n code bytes run halts:
either within n - ip passes, or, when n - ip passes have gone by without a return, by the
fault of fetching past the end of the code.  It halts with INTERPRET_OK (a pass on
OP_RETURN), with INTERPRET_RUNTIME_ERROR, with the out-of-bounds fetch, or with another
fault met first: a constant index outside the pool, a pop or peek below the stack, a push
on a full stack, an int overflow in a concatenation.  More passes never change the
result. -/
theorem run_halts (P : Host F) (vm : VM F) :
    (∀ c, step P vm = .ok c →
      c.vm.ip = vm.ip + 1 ∨ c.vm.ip = vm.ip + 2 ∨ c.vm.ip = vm.ip + 4)
    ∧ (∃ r, run P vm = some r ∧
        ((∃ vm1 vmf, r = .ok (.INTERPRET_OK, vm1) ∧ vmf.chunk = vm.chunk
            ∧ vmf.chunk.code[vmf.ip]? = some OP_RETURN
            ∧ step P vmf = .ok (.done .INTERPRET_OK vm1))
        ∨ (∃ vm1, r = .ok (.INTERPRET_RUNTIME_ERROR, vm1))
        ∨ r = .error .fetchOutOfBounds ∨ r = .error .constantOutOfBounds
        ∨ r = .error .stackUnderflow ∨ r = .error .stackOverflow
        ∨ r = .error .intOverflow))
    ∧ (runLoop P (vm.chunk.code.length - vm.ip) vm = run P vm
        ∨ (runLoop P (vm.chunk.code.length - vm.ip) vm = none
          ∧ run P vm = some (.error .fetchOutOfBounds)))
    ∧ (∀ k, runLoop P (vm.chunk.code.length - vm.ip + 1 + k) vm = run P vm) := by
  obtain ⟨r, hr⟩ := runLoop_total P (vm.chunk.code.length - vm.ip + 1) vm (by omega)
  have hrun : run P vm = some r := hr
  refine ⟨?_, ⟨r, hrun, ?_⟩, ?_, ?_⟩
  · intro c hc
    cases c with
    | next vm1 => exact (step_next_inv P vm vm1 hc).2.2.2.2.2
    | done res vm1 =>
      obtain ⟨_, hcase⟩ := step_done_inv P vm vm1 res hc
      rcases hcase with ⟨_, _, st, v, _, hvm⟩ | ⟨_, b2, msg, _, _, hvm⟩ <;> subst hvm <;>
        exact Or.inl rfl
  · cases r with
    | error f =>
      obtain ⟨vmf, _, hf⟩ := runLoop_error_inv P _ vm f hr
      rcases step_error_inv P vmf f hf with h | h | h | h | h <;> subst h <;> simp
    | ok p =>
      obtain ⟨res, vm1⟩ := p
      obtain ⟨vmf, hc, _, hstep⟩ := runLoop_done_inv P _ vm vm1 res hr
      obtain ⟨_, hcase⟩ := step_done_inv P vmf vm1 res hstep
      rcases hcase with ⟨hres, hret, _⟩ | ⟨hres, _⟩
      · subst hres
        exact Or.inl ⟨vm1, vmf, rfl, hc, hret, hstep⟩
      · subst hres
        exact Or.inr (Or.inl ⟨vm1, rfl⟩)
  · cases h : runLoop P (vm.chunk.code.length - vm.ip) vm with
    | none =>
      exact Or.inr ⟨rfl, runLoop_off_end P _ vm h (Nat.le_refl _)⟩
    | some r2 =>
      exact Or.inl (runLoop_mono P _ vm r2 h).symm
  · intro k
    rw [hrun]
    induction k with
    | zero => exact hr
    | succ k ih => exact runLoop_mono P _ vm r ih

/-- Counterexample to C20 as stated: the one-byte chunk NOT, run on an empty stack, halts
in its first pass with none of INTERPRET_OK, INTERPRET_RUNTIME_ERROR or the out-of-bounds
fetch: the pop reads below the stack. -/
theorem run_halts_counterexample :
    run intHost (opState OP_NOT []) = some (.error .stackUnderflow)
    ∧ ¬ ((∃ vm1, run intHost (opState OP_NOT []) = some (.ok (.INTERPRET_OK, vm1)))
      ∨ (∃ vm1, run intHost (opState OP_NOT []) = some (.ok (.INTERPRET_RUNTIME_ERROR, vm1)))
      ∨ run intHost (opState OP_NOT []) = some (.error .fetchOutOfBounds)) := by
  have h : run intHost (opState OP_NOT []) = some (.error .stackUnderflow) := by decide
  refine ⟨h, ?_⟩
  rw [h]
  simp

end Pepper
